import Mathlib

/-!
# Verification of the Confirmation-Model trading core

A shallow embedding, in Lean 4, of the core of the `Trading` repository:
the four-confirmation signal pipeline (`src/strategy/signal_generator.py`
and the four detectors it orchestrates), the structure filter
(`src/filters/structure_filter.py`), the position sizer
(`src/risk/position_sizing.py`) and the trade simulator
(`backtest_main.py`, `Backtester.simulate_trade`).

Conventions of the embedding:
* Python floats become `ℚ` (the source only ever does field arithmetic and
  comparisons on prices, so exact rationals are a faithful model).
* Bar timestamps become `ℕ` (only equality of timestamps is ever used).
* A Python function that can raise (`ZeroDivisionError` in
  `calculate_position_size`) becomes an `Option`-returning function, `none`
  marking the raise.
* The mutable detector objects become explicit state records threaded
  through pure functions; one call of
  `SignalGenerator.check_for_signal` is one application of `check_for_signal`
  below, mapping the pre-call state to the post-call state plus the result.
* The time, volatility and sweep-quality edge filters perform I/O
  (wall-clock reads, a network VIX fetch); their outputs enter the model as
  an explicit environment record `FilterEnv`, exactly at the points where
  `_run_edge_filters` consumes them.  The structure filter is pure and is
  embedded from its source.
-/

/-- Trade direction, the `'LONG'` / `'SHORT'` strings of the source. -/
inductive Direction where
  | LONG
  | SHORT
deriving DecidableEq, Repr

/-- The `'buyside_sweep'` / `'sellside_sweep'` tags of `detect_sweep`. -/
inductive SweepKind where
  | buyside_sweep
  | sellside_sweep
deriving DecidableEq, Repr

/-- The `'bearish'` / `'bullish'` tags of `identify_fvgs`. -/
inductive FvgKind where
  | bearish
  | bullish
deriving DecidableEq, Repr

/-- The `'swing_high'` / `'swing_low'` tags of `identify_swings`. -/
inductive SwingKind where
  | swing_high
  | swing_low
deriving DecidableEq, Repr

/-- One OHLCV bar (`{time, open, high, low, close, volume}`). -/
structure Bar where
  time : ℕ
  op : ℚ
  high : ℚ
  low : ℚ
  close : ℚ
  volume : ℚ := 0
deriving DecidableEq, Repr

/-- Junk bar used as the default of `List.getD`; every access in the
embedding is at an index that is in range, mirroring the source's direct
indexing. -/
def dBar : Bar := ⟨0, 0, 0, 0, 0, 0⟩

/-- Python's `l[-n:]`: the last `n` elements of a list. -/
def takeLastN (n : ℕ) (l : List α) : List α := l.drop (l.length - n)

/-- Python's `max(l)` for a nonempty list of rationals. -/
def listMax (l : List ℚ) : ℚ := l.foldl max (l.headD 0)

/-- Python's `min(l)` for a nonempty list of rationals. -/
def listMin (l : List ℚ) : ℚ := l.foldl min (l.headD 0)

/-- Python's `int(q)` on a rational: truncation toward zero. -/
def intTrunc (q : ℚ) : ℤ := if 0 ≤ q then ⌊q⌋ else -⌊-q⌋

/-! ## Position sizer (`src/risk/position_sizing.py`) -/

/-- Constructor state of `PositionSizer`: `account_size`, `risk_per_trade`
(and the derived `max_risk_dollars`). -/
structure PositionSizer where
  account_size : ℚ
  risk_per_trade : ℚ
deriving DecidableEq, Repr

/-- `self.max_risk_dollars = account_size * risk_per_trade`. -/
def PositionSizer.max_risk_dollars (ps : PositionSizer) : ℚ :=
  ps.account_size * ps.risk_per_trade

/-- The `self.mnq_brackets` dict, in insertion order:
points-of-risk range → contract count. -/
def mnq_brackets : List ((ℚ × ℚ) × ℤ) :=
  [((20, 24), 5), ((25, 30), 4), ((31, 40), 3), ((41, 60), 2), ((60, 120), 1)]

/-- `PositionSizer._get_mnq_contracts`: first bracket
`min_points ≤ risk_points ≤ max_points` wins, scanning in insertion order;
outside all brackets the fallback is 1 contract. -/
def get_mnq_contracts (risk_points : ℚ) : ℤ :=
  match mnq_brackets.find? (fun b => b.1.1 ≤ risk_points ∧ risk_points ≤ b.1.2) with
  | some b => b.2
  | none => 1

/-- The dict returned by `calculate_position_size`. -/
structure PositionSizeResult where
  symbol : String
  contracts : ℤ
  entry : ℚ
  stop : ℚ
  risk_points : ℚ
  risk_per_contract : ℚ
  total_risk_dollars : ℚ
  risk_percentage : ℚ
  tick_value : ℚ
deriving DecidableEq, Repr

/-- `PositionSizer.calculate_position_size`.  The source divides by
`min_tick`, by `risk_per_contract` and by `self.account_size`; a zero
divisor raises `ZeroDivisionError` in Python, which this embedding returns
as `none`. -/
def calculate_position_size (ps : PositionSizer) (symbol : String)
    (entry stop tick_value min_tick : ℚ) : Option PositionSizeResult :=
  if min_tick = 0 then none
  else if |entry - stop| / min_tick * tick_value = 0 then none
  else if ps.account_size = 0 then none
  else
    let risk_points := |entry - stop|
    let risk_ticks := risk_points / min_tick
    let risk_per_contract := risk_ticks * tick_value
    let contracts_by_risk := intTrunc (ps.max_risk_dollars / risk_per_contract)
    let contracts0 :=
      if symbol = "MNQ" then min contracts_by_risk (get_mnq_contracts risk_points)
      else contracts_by_risk
    let contracts := max 1 contracts0
    let actual_risk_dollars := (contracts : ℚ) * risk_per_contract
    some {
      symbol := symbol
      contracts := contracts
      entry := entry
      stop := stop
      risk_points := risk_points
      risk_per_contract := risk_per_contract
      total_risk_dollars := actual_risk_dollars
      risk_percentage := actual_risk_dollars / ps.account_size * 100
      tick_value := tick_value }

/-! ## Swing / liquidity-sweep detector (`src/strategy/confirmation1_sweep.py`) -/

/-- One entry of `self.swing_highs` / `self.swing_lows`. -/
structure SwingPoint where
  index : ℕ
  time : ℕ
  price : ℚ
  kind : SwingKind
deriving DecidableEq, Repr

/-- The swing-high test of `identify_swings` at index `i`: every `high` in
the `min_swing_candles` bars on each side is strictly below `high[i]`. -/
def isSwingHigh (bars : List Bar) (minSw i : ℕ) : Bool :=
  ((List.range' (i - minSw) minSw).all fun j =>
      (bars.getD j dBar).high < (bars.getD i dBar).high) &&
  ((List.range' (i + 1) minSw).all fun j =>
      (bars.getD j dBar).high < (bars.getD i dBar).high)

/-- The swing-low test of `identify_swings` at index `i`. -/
def isSwingLow (bars : List Bar) (minSw i : ℕ) : Bool :=
  ((List.range' (i - minSw) minSw).all fun j =>
      (bars.getD i dBar).low < (bars.getD j dBar).low) &&
  ((List.range' (i + 1) minSw).all fun j =>
      (bars.getD i dBar).low < (bars.getD j dBar).low)

/-- `LiquiditySweepDetector.identify_swings`: scan indices
`[min_swing_candles, len − min_swing_candles)`; fewer than `lookback` bars
give the empty result (and in the source leave the detector state
untouched). -/
def identify_swings (minSw : ℕ) (bars : List Bar) (lookback : ℕ) :
    List SwingPoint × List SwingPoint :=
  if bars.length < lookback then ([], [])
  else
    let idxs := (List.range bars.length).filter fun i =>
      decide (minSw ≤ i) && decide (i < bars.length - minSw)
    (idxs.filterMap fun i =>
        if isSwingHigh bars minSw i then
          some ⟨i, (bars.getD i dBar).time, (bars.getD i dBar).high, .swing_high⟩
        else none,
     idxs.filterMap fun i =>
        if isSwingLow bars minSw i then
          some ⟨i, (bars.getD i dBar).time, (bars.getD i dBar).low, .swing_low⟩
        else none)

/-- The dict returned by `detect_sweep`; `extreme` models the
`'sweep_high'` key of a buyside sweep and the `'sweep_low'` key of a
sellside sweep. -/
structure Sweep where
  kind : SweepKind
  swing_level : ℚ
  extreme : ℚ
  close : ℚ
  time : ℕ
  direction : Direction
deriving DecidableEq, Repr

/-- The buyside branch of `detect_sweep`: price sweeps above the most
recent swing high by at least the buffer and closes back below it. -/
def buyside_check (buffer : ℕ) (swingHighs : List SwingPoint) (cur : Bar)
    (min_tick : ℚ) : Option Sweep :=
  match swingHighs.getLast? with
  | none => none
  | some lastH =>
    if cur.high ≥ lastH.price + (buffer : ℚ) * min_tick ∧ cur.close < lastH.price then
      some ⟨.buyside_sweep, lastH.price, cur.high, cur.close, cur.time, .SHORT⟩
    else none

/-- The sellside branch of `detect_sweep`: price sweeps below the most
recent swing low by at least the buffer and closes back above it. -/
def sellside_check (buffer : ℕ) (swingLows : List SwingPoint) (cur : Bar)
    (min_tick : ℚ) : Option Sweep :=
  match swingLows.getLast? with
  | none => none
  | some lastL =>
    if cur.low ≤ lastL.price - (buffer : ℚ) * min_tick ∧ cur.close > lastL.price then
      some ⟨.sellside_sweep, lastL.price, cur.low, cur.close, cur.time, .LONG⟩
    else none

/-- `LiquiditySweepDetector.detect_sweep`.  The mutable
`self.swing_highs` / `self.swing_lows` state enters and leaves explicitly:
when both lists are empty the detector first runs `identify_swings` on the
previous bars (the source's early return on `< lookback` bars leaves the
empty state unchanged, which coincides with storing the empty result).
The buyside condition is evaluated first and wins over the sellside one.
`effective_swings` is the state update, `sweep_decision` the per-bar
check, and `detect_sweep` their composition. -/
def effective_swings (minSw : ℕ) (swingHighs swingLows : List SwingPoint)
    (previous_bars : List Bar) : List SwingPoint × List SwingPoint :=
  if swingHighs.isEmpty && swingLows.isEmpty then
    identify_swings minSw previous_bars 20
  else (swingHighs, swingLows)

/-- The decision part of `detect_sweep`, acting on the effective swing
lists: buyside first, then sellside. -/
def sweep_decision (buffer : ℕ) (lists : List SwingPoint × List SwingPoint)
    (cur : Bar) (min_tick : ℚ) : Option Sweep :=
  if lists.1.isEmpty && lists.2.isEmpty then none
  else
    match buyside_check buffer lists.1 cur min_tick with
    | some s => some s
    | none => sellside_check buffer lists.2 cur min_tick

def detect_sweep (minSw buffer : ℕ) (swingHighs swingLows : List SwingPoint)
    (cur : Bar) (previous_bars : List Bar) (min_tick : ℚ) :
    (List SwingPoint × List SwingPoint) × Option Sweep :=
  let lists := effective_swings minSw swingHighs swingLows previous_bars
  (lists, sweep_decision buffer lists cur min_tick)

/-- `LiquiditySweepDetector.get_liquidity_levels`: the last five swing-high
prices (`buyside_liquidity`) and last five swing-low prices
(`sellside_liquidity`). -/
def get_liquidity_levels (swingHighs swingLows : List SwingPoint) :
    List ℚ × List ℚ :=
  ((takeLastN 5 swingHighs).map (·.price), (takeLastN 5 swingLows).map (·.price))

/-! ## HTF FVG detector (`src/strategy/confirmation2_htf_fvg.py`) -/

/-- The FVG dict of `identify_fvgs`; `age` and `filled` are mutated by
`check_delivery`, modelled by returning updated copies. -/
structure FVG where
  kind : FvgKind
  top : ℚ
  bottom : ℚ
  size : ℚ
  start_index : ℕ
  start_time : ℕ
  direction : Direction
  filled : Bool
  age : ℕ
deriving DecidableEq, Repr

/-- `HTFFVGDetector.identify_fvgs`: scan consecutive bar triples; a triple
can yield a bearish FVG, a bullish FVG, or both (appended in that order). -/
def identify_fvgs (minFvgSizeTicks : ℕ) (bars : List Bar) (min_tick : ℚ) :
    List FVG :=
  if bars.length < 3 then []
  else
    (List.range (bars.length - 2)).flatMap fun i =>
      let c1 := bars.getD i dBar
      let c2 := bars.getD (i + 1) dBar
      let c3 := bars.getD (i + 2) dBar
      let bear : List FVG :=
        if c2.high < c1.high ∧ c2.low > c3.low ∧
            c1.high - c3.low ≥ (minFvgSizeTicks : ℚ) * min_tick then
          [⟨.bearish, c1.high, c3.low, c1.high - c3.low, i, c1.time, .SHORT, false, 0⟩]
        else []
      let bull : List FVG :=
        if c2.low > c1.low ∧ c2.high < c3.high ∧
            c3.high - c1.low ≥ (minFvgSizeTicks : ℚ) * min_tick then
          [⟨.bullish, c3.high, c1.low, c3.high - c1.low, i, c1.time, .LONG, false, 0⟩]
        else []
      bear ++ bull

/-- The delivery dict returned by `check_delivery`. -/
structure Delivery where
  fvg : FVG
  delivery_confirmed : Bool
  delivery_time : ℕ
  direction : Direction
deriving DecidableEq, Repr

/-- The loop body of `HTFFVGDetector.check_delivery` for one FVG: a
filled FVG is skipped; otherwise its age is incremented, an FVG aged past
`max_age` is marked filled ("silently expire"), and the bar is tested for
delivery into the gap (returned) or a close through it (marked filled). -/
def step_fvg (max_age : ℕ) (cur : Bar) (f : FVG) : FVG × Option Delivery :=
  if f.filled then (f, none)
  else
    let f1 : FVG := { f with age := f.age + 1 }
    if f1.age > max_age then ({ f1 with filled := true }, none)
    else
      match f1.kind with
      | .bearish =>
        if cur.high ≥ f1.bottom then
          if cur.close < f1.bottom then (f1, some ⟨f1, true, cur.time, .SHORT⟩)
          else if cur.close > f1.top then ({ f1 with filled := true }, none)
          else (f1, none)
        else (f1, none)
      | .bullish =>
        if cur.low ≤ f1.top then
          if cur.close > f1.top then (f1, some ⟨f1, true, cur.time, .LONG⟩)
          else if cur.close < f1.bottom then ({ f1 with filled := true }, none)
          else (f1, none)
        else (f1, none)

/-- `HTFFVGDetector.check_delivery`.  The source iterates over the list,
mutating each FVG in place via the loop body (`step_fvg`) and
**returning as soon as a delivery is confirmed** — FVGs after the
returned one are left untouched.  The updated list is returned alongside
the optional delivery. -/
def check_delivery (max_age : ℕ) (cur : Bar) :
    List FVG → List FVG × Option Delivery
  | [] => ([], none)
  | f :: rest =>
    match step_fvg max_age cur f with
    | (g, some d) => (g :: rest, some d)
    | (g, none) =>
      let r := check_delivery max_age cur rest
      (g :: r.1, r.2)

/-- `HTFFVGDetector.update_fvgs`: rescan the most recent 50 bars and
replace the active set with the non-filled FVGs found there. -/
def update_fvgs (minFvgSizeTicks : ℕ) (bars : List Bar) (min_tick : ℚ) :
    List FVG :=
  (identify_fvgs minFvgSizeTicks (takeLastN 50 bars) min_tick).filter
    fun f => !f.filled

/-! ## iFVG detector (`src/strategy/confirmation3_ifvg.py`) -/

/-- The `'bullish_fvg_disrespected'` / `'bearish_fvg_disrespected'` tags. -/
inductive IfvgKind where
  | bullish_fvg_disrespected
  | bearish_fvg_disrespected
deriving DecidableEq, Repr

/-- The inversion dict returned by `detect_ifvg_inversion`. -/
structure Ifvg where
  kind : IfvgKind
  fvg_top : ℚ
  fvg_bottom : ℚ
  inversion_close : ℚ
  inversion_time : ℕ
  direction : Direction
deriving DecidableEq, Repr

/-- `iFVGDetector.detect_ifvg_inversion`: on the last four bars
`c1 c2 c3 c4`, an opposite-direction FVG formed by `c1 c2 c3` must be
closed through ("disrespected") by `c4` in the trade direction.  With at
least four bars the `for i in range(len(recent) − 3)` loop of the source
runs for exactly `i = 0`. -/
def detect_ifvg_inversion (minFvgSizeTicks : ℕ) (bars : List Bar)
    (direction : Direction) (min_tick : ℚ) : Option Ifvg :=
  if bars.length < 4 then none
  else
    match takeLastN 4 bars with
    | [c1, c2, c3, c4] =>
      match direction with
      | .SHORT =>
        if c2.low > c1.low ∧ c2.high < c3.high ∧
            c3.high - c1.low ≥ (minFvgSizeTicks : ℚ) * min_tick ∧
            c4.close < c1.low then
          some ⟨.bullish_fvg_disrespected, c3.high, c1.low, c4.close, c4.time, .SHORT⟩
        else none
      | .LONG =>
        if c2.high < c1.high ∧ c2.low > c3.low ∧
            c1.high - c3.low ≥ (minFvgSizeTicks : ℚ) * min_tick ∧
            c4.close > c1.high then
          some ⟨.bearish_fvg_disrespected, c1.high, c3.low, c4.close, c4.time, .LONG⟩
        else none
    | _ => none

/-! ## CISD detector (`src/strategy/confirmation4_cisd.py`) -/

/-- The confirmation dict returned by `detect_cisd`. -/
structure Cisd where
  cisd_level : ℚ
  direction : Direction
  first_candle : Bar
  current_close : ℚ
  time : ℕ
deriving DecidableEq, Repr

/-- Up-close candle: `close > open`. -/
def upClose (b : Bar) : Bool := b.close > b.op

/-- Down-close candle: `close < open`. -/
def downClose (b : Bar) : Bool := b.close < b.op

/-- The backward-walking loop of `detect_cisd`
(`for i in range(start, stop, -1)` with `step = -1`): starting at index
`i`, collect bars while the predicate holds, for at most `fuel` steps,
stopping at the first failing bar. -/
def collectSeries (bars : List Bar) (p : Bar → Bool) : ℕ → ℕ → List Bar
  | _, 0 => []
  | i, fuel + 1 =>
    let b := bars.getD i dBar
    if p b then b :: collectSeries bars p (i - 1) fuel else []

/-- The `for i, bar in enumerate(bars): if bar['time'] == sweep_time: break`
scan of `detect_cisd`: index of the first bar with the given time. -/
def find_time_index (t : ℕ) : List Bar → Option ℕ
  | [] => none
  | b :: rest =>
    if b.time = t then some 0 else (find_time_index t rest).map (· + 1)

/-- `CISDDetector.detect_cisd`: locate the sweep bar by exact time match
(first occurrence), require its index `s` to satisfy `s ≥ 5`, walk
backward from `s − 1` for `(s − 1) − max(0, s − 10)` steps collecting
same-direction-close candles, take the open of the oldest collected candle
as the CISD level, and confirm when the latest bar closes through it in
the trade direction. -/
def detect_cisd (bars : List Bar) (sweep : Sweep) (direction : Direction) :
    Option Cisd :=
  if bars.length < 10 then none
  else
    match find_time_index sweep.time bars with
    | none => none
    | some s =>
      if s < 5 then none
      else
        let current := bars.getLast?.getD dBar
        match direction with
        | .SHORT =>
          let series := collectSeries bars upClose (s - 1) (s - 1 - (s - 10))
          match series.getLast? with
          | none => none
          | some first_candle =>
            if current.close < first_candle.op then
              some ⟨first_candle.op, .SHORT, first_candle, current.close, current.time⟩
            else none
        | .LONG =>
          let series := collectSeries bars downClose (s - 1) (s - 1 - (s - 10))
          match series.getLast? with
          | none => none
          | some first_candle =>
            if current.close > first_candle.op then
              some ⟨first_candle.op, .LONG, first_candle, current.close, current.time⟩
            else none

/-! ## Structure filter (`src/filters/structure_filter.py`) -/

/-- `StructureFilter.calculate_range_position`: where the entry price sits
inside the high/low range of the last `lookback` bars (78 by
construction); fewer bars give `none`, a degenerate range gives `0.5`. -/
def calculate_range_position (lookback : ℕ) (entry_price : ℚ)
    (bars : List Bar) : Option ℚ :=
  if bars.length < lookback then none
  else
    let recent := takeLastN lookback bars
    let range_high := listMax (recent.map (·.high))
    let range_low := listMin (recent.map (·.low))
    if range_high - range_low = 0 then some (1 / 2)
    else some ((entry_price - range_low) / (range_high - range_low))

/-- `StructureFilter.is_at_extreme` (with the constructor defaults
`lookback_bars = 78`, `short_min_position = 0.70`,
`long_max_position = 0.30`): the boolean verdict plus the range position
(0 when there are not enough bars). -/
def is_at_extreme (direction : Direction) (entry_price : ℚ)
    (bars : List Bar) : Bool × ℚ :=
  match calculate_range_position 78 entry_price bars with
  | none => (false, 0)
  | some pos =>
    match direction with
    | .SHORT => (decide (pos ≥ 7 / 10), pos)
    | .LONG => (decide (pos ≤ 3 / 10), pos)

/-- `StructureFilter.get_quality_score`. -/
def get_quality_score (direction : Direction) (entry_price : ℚ)
    (bars : List Bar) : ℚ :=
  match calculate_range_position 78 entry_price bars with
  | none => 0
  | some pos =>
    match direction with
    | .SHORT =>
      if pos ≥ 7 / 10 then 7 / 10 + (pos - 7 / 10) / (1 - 7 / 10) * (3 / 10)
      else 0
    | .LONG =>
      if pos ≤ 3 / 10 then 7 / 10 + (3 / 10 - pos) / (3 / 10) * (3 / 10)
      else 0

/-! ## Signal generator (`src/strategy/signal_generator.py`) -/

/-- `self.confirmation_state`: one optional record per stage. -/
structure ConfState where
  sweep : Option Sweep
  htf_fvg : Option Delivery
  ifvg : Option Ifvg
  cisd : Option Cisd
deriving DecidableEq, Repr

/-- The all-`None` state installed by `_reset_confirmation_state` (and by
`__init__`). -/
def emptyConf : ConfState := ⟨none, none, none, none⟩

/-- The configuration options `SignalGenerator` reads, with their
defaults, plus the effective `self.filters_enabled` flag (the conjunction
of the module-level `FILTERS_ENABLED` switch, `USE_EDGE_FILTERS`, and the
filters constructing without an exception). -/
structure Config where
  min_swing_candles : ℕ := 3
  sweep_buffer_ticks : ℕ := 1
  min_fvg_size_ticks : ℕ := 2
  max_htf_fvg_age : ℕ := 20
  stop_loss_buffer_ticks : ℕ := 3
  filters_enabled : Bool
deriving DecidableEq, Repr

/-- The outputs of the impure edge-filter collaborators, exactly at the
points where `_run_edge_filters` consumes them: the time filter reads the
wall clock / timezone tables, the volatility filter fetches the live VIX
over the network, and the sweep-quality scorer parses bar timestamps.
Holding a `FilterEnv` fixed models one ambient environment at call time. -/
structure FilterEnv where
  is_good_time : Bool
  time_score_raw : ℚ
  is_good_vol : Bool
  vol_score_raw : ℚ
  vix : ℚ
  sweep_quality : ℚ
deriving DecidableEq, Repr

/-- The full mutable state of one `SignalGenerator` instance: the sweep
detector's swing lists, the HTF FVG detector's active set, and the
confirmation state. -/
structure GenState where
  swingHighs : List SwingPoint
  swingLows : List SwingPoint
  active_fvgs : List FVG
  conf : ConfState
deriving DecidableEq, Repr

/-- The state of a freshly constructed generator. -/
def initGenState : GenState := ⟨[], [], [], emptyConf⟩

/-- The `signal['filter_scores']` dict attached in `check_for_signal`. -/
structure FilterScores where
  time_score : ℚ
  volatility_score : ℚ
  structure_score : ℚ
  sweep_quality : ℚ
  overall_score : ℚ
  vix : ℚ
  filters_enabled : Bool
deriving DecidableEq, Repr

/-- The signal dict built by `_build_signal`; `rr` models the
`'risk_reward_ratio'` key. -/
structure Signal where
  time : ℕ
  direction : Direction
  entry : ℚ
  stop_loss : ℚ
  target : ℚ
  risk : ℚ
  reward : ℚ
  rr : ℚ
  confirmations : ConfState
  filter_scores : Option FilterScores
deriving DecidableEq, Repr

/-- `SignalGenerator._find_opposing_liquidity`: nearest opposing
liquidity level from the swing detector's last-five lists, or the 2×
excursion default when none exist. -/
def find_opposing_liquidity (st : GenState) (sw : Sweep)
    (direction : Direction) : ℚ :=
  let liq := get_liquidity_levels st.swingHighs st.swingLows
  match direction with
  | .SHORT =>
    if liq.2 ≠ [] then listMin liq.2
    else sw.swing_level - |sw.swing_level - sw.close| * 2
  | .LONG =>
    if liq.1 ≠ [] then listMax liq.1
    else sw.swing_level + |sw.swing_level - sw.close| * 2

/-- `SignalGenerator._build_signal` (without the `filter_scores` key,
which `check_for_signal` attaches afterwards).  `sw` is the recorded
sweep confirmation the source reads from `self.confirmation_state`;
`st.conf` is snapshotted into `confirmations`. -/
def build_signal (cfg : Config) (st : GenState) (sw : Sweep) (cur : Bar)
    (direction : Direction) (min_tick : ℚ) : Signal :=
  let entry := cur.close
  let stop_loss :=
    match direction with
    | .SHORT => sw.swing_level + (cfg.stop_loss_buffer_ticks : ℚ) * min_tick
    | .LONG => sw.swing_level - (cfg.stop_loss_buffer_ticks : ℚ) * min_tick
  let target := find_opposing_liquidity st sw direction
  let risk := |entry - stop_loss|
  let reward := |target - entry|
  { time := cur.time
    direction := direction
    entry := entry
    stop_loss := stop_loss
    target := target
    risk := risk
    reward := reward
    rr := if risk > 0 then reward / risk else 0
    confirmations := st.conf
    filter_scores := none }

/-- `SignalGenerator._run_edge_filters`.  The time and volatility scores
come from the environment (overridden to `0.5` on a failed check, the
source's warn-and-continue policy); the structure filter is evaluated from
the bars and is the only check that can return `None`; the sweep-quality
score is recorded as the environment delivers it. -/
def run_edge_filters (env : FilterEnv) (direction : Direction)
    (entry_price : ℚ) (ltf_bars : List Bar) :
    Option (ℚ × ℚ × ℚ × ℚ × ℚ) :=
  let time_score := if env.is_good_time then env.time_score_raw else 1 / 2
  let vol_score := if env.is_good_vol then env.vol_score_raw else 1 / 2
  let se := is_at_extreme direction entry_price ltf_bars
  let structure_score := get_quality_score direction entry_price ltf_bars
  if se.1 = false then none
  else some (time_score, vol_score, structure_score, env.sweep_quality, env.vix)

/-- Confirmation #1 of `check_for_signal`: run `detect_sweep` on every
call; a detected sweep is stored into `confirmation_state['sweep']`,
replacing any previously recorded one. -/
def sweepStage (cfg : Config) (st : GenState) (cur : Bar)
    (prev : List Bar) (min_tick : ℚ) : GenState :=
  let r := detect_sweep cfg.min_swing_candles cfg.sweep_buffer_ticks
    st.swingHighs st.swingLows cur prev min_tick
  let st1 := { st with swingHighs := r.1.1, swingLows := r.1.2 }
  match r.2 with
  | some sw => { st1 with conf := { st1.conf with sweep := some sw } }
  | none => st1

/-- Confirmation #2 of `check_for_signal` (only run while
`confirmation_state['htf_fvg']` is unfilled): `update_fvgs` on the HTF
bars, then `check_delivery` against the current LTF bar; the delivery is
recorded only when its direction matches the sweep's. -/
def htfStage (cfg : Config) (st : GenState) (htf_bars : List Bar)
    (cur : Bar) (min_tick : ℚ) (direction : Direction) : GenState :=
  let active := update_fvgs cfg.min_fvg_size_ticks htf_bars min_tick
  let r := check_delivery cfg.max_htf_fvg_age cur active
  let st1 := { st with active_fvgs := r.1 }
  match r.2 with
  | some d =>
    if d.direction = direction then
      { st1 with conf := { st1.conf with htf_fvg := some d } }
    else st1
  | none => st1

/-- Confirmation #3 of `check_for_signal` (only run while unfilled):
`detect_ifvg_inversion` on the last ten LTF bars (the nested detector is
constructed with `min_fvg_size_ticks = 1`). -/
def ifvgStage (st : GenState) (ltf_bars : List Bar) (min_tick : ℚ)
    (direction : Direction) : GenState :=
  match detect_ifvg_inversion 1 (takeLastN 10 ltf_bars) direction min_tick with
  | some r =>
    if r.direction = direction then
      { st with conf := { st.conf with ifvg := some r } }
    else st
  | none => st

/-- Confirmation #4 of `check_for_signal` (only run while unfilled):
`detect_cisd` on the LTF bars against the recorded sweep. -/
def cisdStage (st : GenState) (ltf_bars : List Bar) (sw : Sweep)
    (direction : Direction) : GenState :=
  match detect_cisd ltf_bars sw direction with
  | some c =>
    if c.direction = direction then
      { st with conf := { st.conf with cisd := some c } }
    else st
  | none => st

/-- The confirmation part of `check_for_signal`: the four gated stages in
order, each early-returning `None` (here: a `none` second component) while
its confirmation is missing.  When all four are recorded the recorded
sweep and the current bar are handed to the build step. -/
def runStages (cfg : Config) (st : GenState) (ltf_bars htf_bars : List Bar)
    (min_tick : ℚ) : GenState × Option (Sweep × Bar) :=
  if ltf_bars.length < 20 ∨ htf_bars.length < 20 then (st, none)
  else
    let cur := ltf_bars.getLast?.getD dBar
    let st1 := sweepStage cfg st cur ltf_bars.dropLast min_tick
    match st1.conf.sweep with
    | none => (st1, none)
    | some sw =>
      let direction := sw.direction
      let st2 := if st1.conf.htf_fvg.isSome then st1
        else htfStage cfg st1 htf_bars cur min_tick direction
      match st2.conf.htf_fvg with
      | none => (st2, none)
      | some _ =>
        let st3 := if st2.conf.ifvg.isSome then st2
          else ifvgStage st2 ltf_bars min_tick direction
        match st3.conf.ifvg with
        | none => (st3, none)
        | some _ =>
          let st4 := if st3.conf.cisd.isSome then st3
            else cisdStage st3 ltf_bars sw direction
          match st4.conf.cisd with
          | none => (st4, none)
          | some _ => (st4, some (sw, cur))

/-- The tail of `check_for_signal` once all four confirmations are
aligned: optional edge filters (a structure-filter failure resets the
confirmation state and yields `None`), then `_build_signal`, the
`filter_scores` attachment, and the unconditional reset. -/
def finishStage (cfg : Config) (env : FilterEnv) (st : GenState)
    (sw : Sweep) (cur : Bar) (ltf_bars : List Bar) (min_tick : ℚ) :
    GenState × Option Signal :=
  let direction := sw.direction
  let entry_price := cur.close
  let scores :=
    if cfg.filters_enabled then
      run_edge_filters env direction entry_price ltf_bars
    else some (1, 1, 1, 10, 15)
  match scores with
  | none => ({ st with conf := emptyConf }, none)
  | some (ts, vs, ss, sq, vix) =>
    let sig0 := build_signal cfg st sw cur direction min_tick
    let sig := { sig0 with
      filter_scores := some
        ⟨ts, vs, ss, sq, (ts + vs + ss) / 3, vix, cfg.filters_enabled⟩ }
    ({ st with conf := emptyConf }, some sig)

/-- `SignalGenerator.check_for_signal`: one call of the sole public entry
point, mapping the pre-call generator state to the post-call state plus
the optional signal. -/
def check_for_signal (cfg : Config) (env : FilterEnv) (st : GenState)
    (ltf_bars htf_bars : List Bar) (min_tick : ℚ) :
    GenState × Option Signal :=
  match runStages cfg st ltf_bars htf_bars min_tick with
  | (st1, none) => (st1, none)
  | (st1, some (sw, cur)) => finishStage cfg env st1 sw cur ltf_bars min_tick

/-! ## Trade simulator (`backtest_main.py`, `Backtester.simulate_trade`) -/

/-- The `'WIN'` / `'LOSS'` / `'BREAKEVEN'` result tags. -/
inductive TradeTag where
  | WIN
  | LOSS
  | BREAKEVEN
deriving DecidableEq, Repr

/-- The trade dict returned by `simulate_trade`. -/
structure TradeResult where
  time : ℕ
  direction : Direction
  entry : ℚ
  exit : ℚ
  pnl : ℚ
  tag : TradeTag
  contracts : ℤ
  bars_held : ℕ
deriving DecidableEq, Repr

/-- The per-bar stop test of `simulate_trade`, checked first in each bar:
for a SHORT the bar's high reaching the stop, for a LONG the bar's low. -/
def stop_hit (direction : Direction) (stop : ℚ) (b : Bar) : Bool :=
  match direction with
  | .SHORT => b.high ≥ stop
  | .LONG => b.low ≤ stop

/-- The per-bar target test of `simulate_trade`, checked only after the
stop test fails on that bar. -/
def target_hit (direction : Direction) (target : ℚ) (b : Bar) : Bool :=
  match direction with
  | .SHORT => b.low ≤ target
  | .LONG => b.high ≥ target

/-- The scan loop of `simulate_trade` over the truncated future bars;
`future_bars` is kept whole for the `bars_held` computation
(`future_bars.index(bar) + 1` in the source). -/
def simLoop (sig : Signal) (pos : PositionSizeResult)
    (future_bars : List Bar) : List Bar → Option TradeResult
  | [] => none
  | b :: rest =>
    if stop_hit sig.direction sig.stop_loss b then
      some { time := sig.time, direction := sig.direction, entry := sig.entry
             exit := sig.stop_loss, pnl := -pos.total_risk_dollars
             tag := .LOSS, contracts := pos.contracts
             bars_held := future_bars.indexOf b + 1 }
    else if target_hit sig.direction sig.target b then
      some { time := sig.time, direction := sig.direction, entry := sig.entry
             exit := sig.target
             pnl :=
               match sig.direction with
               | .SHORT => (pos.contracts : ℚ) * (sig.entry - sig.target) * pos.tick_value
               | .LONG => (pos.contracts : ℚ) * (sig.target - sig.entry) * pos.tick_value
             tag := .WIN, contracts := pos.contracts
             bars_held := future_bars.indexOf b + 1 }
    else simLoop sig pos future_bars rest

/-- `Backtester.simulate_trade`: scan at most `min(100, len)` future bars,
stop before target within each bar, and fall back to a breakeven exit at
the entry price when neither level is hit. -/
def simulate_trade (sig : Signal) (pos : PositionSizeResult)
    (future_bars : List Bar) : TradeResult :=
  let max_bars_to_check := min 100 future_bars.length
  match simLoop sig pos future_bars (future_bars.take max_bars_to_check) with
  | some r => r
  | none =>
    { time := sig.time, direction := sig.direction, entry := sig.entry
      exit := sig.entry, pnl := 0, tag := .BREAKEVEN
      contracts := pos.contracts, bars_held := max_bars_to_check }

/-! ## Concrete scenarios -/

/-- LTF bar `i` of the master scenario: a flat base (range low 100 at bar
10), a ramp into a swing high of 190 at bar 70, a pullback, a three-bar
up-close run (bars 76–78) forming a bullish iFVG, and a final bar that
sweeps the swing high and closes back down at 180. -/
def mbar (i : ℕ) : Bar :=
  if i = 10 then ⟨10, 118, 122, 100, 117, 0⟩
  else if i = 60 then ⟨60, 120, 130, 119, 128, 0⟩
  else if i = 61 then ⟨61, 128, 140, 127, 138, 0⟩
  else if i = 62 then ⟨62, 138, 150, 137, 148, 0⟩
  else if i = 63 then ⟨63, 148, 158, 147, 156, 0⟩
  else if i = 64 then ⟨64, 156, 165, 155, 163, 0⟩
  else if i = 65 then ⟨65, 163, 172, 162, 170, 0⟩
  else if i = 66 then ⟨66, 170, 178, 169, 176, 0⟩
  else if i = 67 then ⟨67, 176, 183, 175, 181, 0⟩
  else if i = 68 then ⟨68, 181, 186, 180, 184, 0⟩
  else if i = 69 then ⟨69, 184, 188, 183, 186, 0⟩
  else if i = 70 then ⟨70, 186, 190, 185, 188, 0⟩
  else if i = 71 then ⟨71, 186, 187, 181, 182, 0⟩
  else if i = 72 then ⟨72, 182, 184, 179, 180, 0⟩
  else if i = 73 then ⟨73, 180, 183, 178, 181, 0⟩
  else if i = 74 then ⟨74, 181, 184, 180, 182, 0⟩
  else if i = 75 then ⟨75, 186, 188, 183, 184, 0⟩
  else if i = 76 then ⟨76, 183, 186, 182, 185, 0⟩
  else if i = 77 then ⟨77, 184, 188, 183, 187, 0⟩
  else if i = 78 then ⟨78, 187, 191, 185, 190, 0⟩
  else if i = 79 then ⟨79, 189, 195, 179, 180, 0⟩
  else ⟨i, 120, 125, 115, 120, 0⟩

/-- The 80 LTF bars of the master scenario. -/
def ltfM : List Bar := (List.range 80).map mbar

/-- HTF bar `i` of the master scenario: constant bars except a bearish
FVG triple at indices 10–12 whose gap (190–200) the final LTF bar
delivers into. -/
def hbarM (i : ℕ) : Bar :=
  if i = 10 then ⟨110, 195, 200, 193, 196, 0⟩
  else if i = 11 then ⟨111, 196, 198, 192, 193, 0⟩
  else if i = 12 then ⟨112, 193, 196, 190, 191, 0⟩
  else ⟨100 + i, 150, 152, 148, 150, 0⟩

/-- The 20 HTF bars of the master scenario. -/
def htfM : List Bar := (List.range 20).map hbarM

/-- Master configuration with edge filters enabled (all config values at
their source defaults). -/
def cfgF : Config := { filters_enabled := true }

/-- Master configuration with edge filters disabled (baseline mode). -/
def cfgNF : Config := { filters_enabled := false }

/-- A calm filter environment: optimal session time, VIX 15. -/
def envA : FilterEnv := ⟨true, 1, true, 1, 15, 8⟩

/-- The same environment except that the VIX fetch now returns 30 (an
unfavourable volatility regime). -/
def envB : FilterEnv := ⟨true, 1, false, 1, 30, 8⟩

/-! ## Spec-level CISD formulation

`cisd_spec` is written from the (amended) specification wording of
`detect_cisd` — "walk backward from the bar immediately preceding the
sweep, collecting a maximal contiguous run of same-direction-close
candles, stopping at the first opposite-direction candle or after **9**
bars; the CISD level is the open of the oldest bar of that run" — to be
compared with the loop-level translation `detect_cisd`. -/

/-- The backward run of the spec formulation: of the bars before index
`s`, newest first, keep at most `min 9 (s − 1)` (so the window never
reaches bar 0), then take the maximal prefix of same-direction closes. -/
def cisdRun (bars : List Bar) (p : Bar → Bool) (s : ℕ) : List Bar :=
  (((bars.take s).reverse).take (min 9 (s - 1))).takeWhile p

/-- The amended-spec formulation of `detect_cisd`. -/
def cisd_spec (bars : List Bar) (sweep : Sweep) (direction : Direction) :
    Option Cisd :=
  if bars.length < 10 then none
  else
    match find_time_index sweep.time bars with
    | none => none
    | some s =>
      if s < 5 then none
      else
        let current := bars.getLast?.getD dBar
        match direction with
        | .SHORT =>
          match (cisdRun bars upClose s).getLast? with
          | none => none
          | some first_candle =>
            if current.close < first_candle.op then
              some ⟨first_candle.op, .SHORT, first_candle, current.close, current.time⟩
            else none
        | .LONG =>
          match (cisdRun bars downClose s).getLast? with
          | none => none
          | some first_candle =>
            if current.close > first_candle.op then
              some ⟨first_candle.op, .LONG, first_candle, current.close, current.time⟩
            else none

/-! ## Invariants of the confirmation state -/

/-- Direction-consistency of an emitted signal: every non-absent entry of
its `confirmations` snapshot carries the signal's own direction. -/
def SigConsistent (sig : Signal) : Prop :=
  (∀ sw, sig.confirmations.sweep = some sw → sw.direction = sig.direction) ∧
  (∀ d, sig.confirmations.htf_fvg = some d → d.direction = sig.direction) ∧
  (∀ x, sig.confirmations.ifvg = some x → x.direction = sig.direction) ∧
  (∀ c, sig.confirmations.cisd = some c → c.direction = sig.direction)

/-- Invariant of the generator state: without a recorded sweep no other
stage is recorded; with one, every recorded stage matches its direction. -/
def ConfInv (st : GenState) : Prop :=
  match st.conf.sweep with
  | none => st.conf.htf_fvg = none ∧ st.conf.ifvg = none ∧ st.conf.cisd = none
  | some sw =>
    (∀ d, st.conf.htf_fvg = some d → d.direction = sw.direction) ∧
    (∀ x, st.conf.ifvg = some x → x.direction = sw.direction) ∧
    (∀ c, st.conf.cisd = some c → c.direction = sw.direction)

/-- The invariant relative to a fixed recorded sweep: the sweep entry
holds `sw` and every other recorded entry matches its direction. -/
def EntriesOk (st : GenState) (sw : Sweep) : Prop :=
  st.conf.sweep = some sw ∧
  (∀ d, st.conf.htf_fvg = some d → d.direction = sw.direction) ∧
  (∀ x, st.conf.ifvg = some x → x.direction = sw.direction) ∧
  (∀ c, st.conf.cisd = some c → c.direction = sw.direction)


/-- Hypothesis of the amended C1: the call does not replace the recorded
sweep with a sweep of the opposite direction (`detect_sweep` is re-run on
every call; a newly found sweep overwrites the recorded one). -/
def NoFlip (cfg : Config) (st : GenState) (ltf_bars : List Bar)
    (min_tick : ℚ) : Prop :=
  ∀ sw₀ sw₁, st.conf.sweep = some sw₀ →
    (detect_sweep cfg.min_swing_candles cfg.sweep_buffer_ticks
        st.swingHighs st.swingLows (ltf_bars.getLast?.getD dBar)
        ltf_bars.dropLast min_tick).2 = some sw₁ →
    sw₁.direction = sw₀.direction

/-! ## Concrete two-call scenarios (sweep replacement mid-episode) -/

/-- LTF bar `i` of call 1: a flat 21-bar window with a swing low of 140 at
bar 5, a swing high of 160 at bar 10, and a final bar that sweeps the
swing high (high 161) and closes at 152. -/
def bar1 (i : ℕ) : Bar :=
  if i = 5 then ⟨5, 148, 151, 140, 149, 0⟩
  else if i = 10 then ⟨10, 152, 160, 150, 153, 0⟩
  else if i = 20 then ⟨20, 158, 161, 150, 152, 0⟩
  else ⟨i, 150, 151, 149, 150, 0⟩

/-- The 21 LTF bars of call 1. -/
def ltf1 : List Bar := (List.range 21).map bar1

/-- HTF bar `i` of call 1: constant bars except a bearish FVG triple at
indices 10–12 with gap 155–158, which the call-1 LTF bar delivers into. -/
def hbar1 (i : ℕ) : Bar :=
  if i = 10 then ⟨210, 156, 158, 154, 157, 0⟩
  else if i = 11 then ⟨211, 156, 157, 156, 157, 0⟩
  else if i = 12 then ⟨212, 156, 157, 155, 156, 0⟩
  else ⟨200 + i, 150, 152, 148, 150, 0⟩

/-- The 20 HTF bars of call 1. -/
def htf1 : List Bar := (List.range 20).map hbar1

/-- LTF bar `i` of call 2 (times 30–50): flat bars, then an up-close bar
16, a three-bar down-close run (bars 17–19) forming a bearish iFVG, and a
final bar that sweeps the call-1 swing low (low 139) and closes at 149. -/
def bar2 (i : ℕ) : Bar :=
  if i = 16 then ⟨46, 143, 147, 142, 146, 0⟩
  else if i = 17 then ⟨47, 146, 146, 143, 144, 0⟩
  else if i = 18 then ⟨48, 145, 145, 142, 143, 0⟩
  else if i = 19 then ⟨49, 144, 145, 141, 142, 0⟩
  else if i = 20 then ⟨50, 148, 150, 139, 149, 0⟩
  else ⟨30 + i, 150, 151, 149, 150, 0⟩

/-- The 21 LTF bars of call 2. -/
def ltf2 : List Bar := (List.range 21).map bar2

/-- 20 constant HTF bars containing no FVG at all. -/
def htf2 : List Bar := (List.range 20).map fun i => ⟨300 + i, 150, 152, 148, 150, 0⟩

/-- Call 1 of the C1 scenario: sweep (SHORT) and HTF FVG delivery (SHORT)
are recorded, the iFVG stage stalls. -/
def c1call1 : GenState × Option Signal :=
  check_for_signal cfgNF envA initGenState ltf1 htf1 (1/4)

/-- Call 2 of the C1 scenario: a sellside sweep (LONG) replaces the
recorded SHORT sweep, the recorded SHORT HTF delivery is kept, and the
remaining stages confirm LONG, emitting a mixed-direction signal. -/
def c1call2 : GenState × Option Signal :=
  check_for_signal cfgNF envA c1call1.1 ltf2 htf2 (1/4)

/-- Call 1 of the C2 scenario: only the SHORT sweep is recorded (the
FVG-free `htf2` stalls the HTF stage). -/
def c2call1 : GenState × Option Signal :=
  check_for_signal cfgNF envA initGenState ltf1 htf2 (1/4)

/-- Call 2 of the C2 scenario: the recorded SHORT sweep is replaced by a
LONG one with no reset in between. -/
def c2call2 : GenState × Option Signal :=
  check_for_signal cfgNF envA c2call1.1 ltf2 htf2 (1/4)

/-! ## Small concrete inputs for the remaining claims -/

/-- A bearish FVG (gap 6–9) that the bar `barD` delivers into. -/
def fvgA : FVG := ⟨.bearish, 9, 6, 3, 0, 0, .SHORT, false, 0⟩

/-- A second, farther bearish FVG behind `fvgA` in the active list. -/
def fvgB : FVG := ⟨.bearish, 20, 18, 2, 1, 1, .SHORT, false, 0⟩

/-- An old non-filled bearish FVG one bar away from expiry. -/
def fvgC : FVG := ⟨.bearish, 9, 6, 3, 0, 0, .SHORT, false, 19⟩

/-- An expired-on-this-call bearish FVG (age 20 before the call). -/
def fvgD : FVG := ⟨.bearish, 9, 6, 3, 0, 0, .SHORT, false, 20⟩

/-- A bar that rallies into `fvgA` (high 10 ≥ 6) and rejects (close 5). -/
def barD : Bar := ⟨5, 7, 10, 4, 5, 0⟩

/-- A bar far below both FVGs: no delivery, pure aging. -/
def barE : Bar := ⟨6, 1, 2, 0, 1, 0⟩

/-- Bar `i` of the CISD counterexample window: bars 1–10 are all
up-close, bar 11 is the sweep bar closing at 30. -/
def cbar (i : ℕ) : Bar :=
  if i = 0 then ⟨0, 10, 11, 9, 10, 0⟩
  else if i = 1 then ⟨1, 40, 60, 39, 45, 0⟩
  else if i = 11 then ⟨11, 55, 70, 29, 30, 0⟩
  else ⟨i, 50 + i, 60, 40, 55 + i, 0⟩

/-- The 12 bars of the CISD counterexample. -/
def cbars : List Bar := (List.range 12).map cbar

/-- A sweep whose time matches bar 11 of `cbars`. -/
def csweep : Sweep := ⟨.buyside_sweep, 60, 70, 30, 11, .SHORT⟩

/-- A swing-high list whose latest level is 100. -/
def hsX : List SwingPoint := [⟨0, 0, 100, .swing_high⟩]

/-- A swing-low list whose latest level is 90. -/
def lsX : List SwingPoint := [⟨1, 1, 90, .swing_low⟩]

/-- A bar that satisfies the buyside condition against 100 (high 100.25,
close 95 < 100) and the sellside condition against 90 (low 89,
close 95 > 90) at the same time. -/
def curX : Bar := ⟨5, 99, 401/4, 89, 95, 0⟩

/-- A sweep at level 100 whose stop (100 + 3 ticks) coincides with the
close of `barX`, producing a zero risk distance. -/
def swX : Sweep := ⟨.buyside_sweep, 100, 101, 403/4, 0, .SHORT⟩

/-- A bar closing exactly at the SHORT stop level 100.75. -/
def barX : Bar := ⟨0, 100, 101, 99, 403/4, 0⟩

/-- A SHORT signal at the spec's simulation scenario: entry 100,
stop 106, target 88. -/
def sigX : Signal := ⟨0, .SHORT, 100, 106, 88, 6, 12, 2, emptyConf, none⟩

/-- A 1-contract position with 48 dollars of total risk. -/
def posX : PositionSizeResult := ⟨"MNQ", 1, 100, 106, 6, 48, 48, 96/1000, 2⟩

/-- Future bars for the loss scenario: bar 0 hits nothing, bar 1 reaches
high 107 (stop) and low 88 (target) in the same bar. -/
def barsHit : List Bar := [⟨0, 100, 105, 95, 100, 0⟩, ⟨1, 101, 107, 88, 90, 0⟩]

/-- 105 future bars: the first 104 hit nothing, the 105th would hit the
stop — but it lies beyond the 100-bar scan window. -/
def barsBE : List Bar :=
  (List.range 104).map (fun i => ⟨i, 100, 105, 95, 100, 0⟩) ++
    [⟨104, 100, 107, 95, 100, 0⟩]

/-- A generator state with only an HTF delivery recorded (used to witness
the stage-preservation theorem). -/
def dX : Delivery := ⟨fvgA, true, 5, .SHORT⟩

/-- A state carrying `dX` as its recorded HTF confirmation. -/
def stX : GenState := ⟨[], [], [], ⟨none, some dX, none, none⟩⟩

/-! # Theorems -/

/-- **C3**: whenever `entry ≠ stop`, `tick_value > 0`, `min_tick > 0` (and
the sizer's account size is nonzero, so that the `risk_percentage` division
is defined), `calculate_position_size` completes and returns
`contracts ≥ 1`, with `total_risk_dollars` exactly
`contracts × risk_per_contract` and
`risk_per_contract = (|entry − stop| / min_tick) × tick_value`. -/
theorem C3_position_sizing (ps : PositionSizer) (symbol : String)
    (entry stop tick_value min_tick : ℚ)
    (hes : entry ≠ stop) (htv : 0 < tick_value) (hmt : 0 < min_tick)
    (hacct : ps.account_size ≠ 0) :
    ∃ r, calculate_position_size ps symbol entry stop tick_value min_tick = some r ∧
      1 ≤ r.contracts ∧
      r.total_risk_dollars = (r.contracts : ℚ) * r.risk_per_contract ∧
      r.risk_per_contract = |entry - stop| / min_tick * tick_value := by
  have hrp : |entry - stop| ≠ 0 := by
    simp only [ne_eq, abs_eq_zero, sub_eq_zero]
    exact hes
  have hrpc : |entry - stop| / min_tick * tick_value ≠ 0 := by
    apply mul_ne_zero
    · exact div_ne_zero hrp (ne_of_gt hmt)
    · exact ne_of_gt htv
  unfold calculate_position_size
  rw [if_neg (ne_of_gt hmt), if_neg hrpc, if_neg hacct]
  exact ⟨_, rfl, le_max_left 1 _, rfl, rfl⟩

/-- Witness for C3 at the spec's own scenario: account 50000, risk 0.5 %,
entry 16515, stop 16527, tick value 2, min tick 0.25 give 1 contract and a
total risk of 96 dollars. -/
theorem C3_position_sizing_witness :
    (16515 : ℚ) ≠ 16527 ∧ (0 : ℚ) < 2 ∧ (0 : ℚ) < 1/4 ∧
      (⟨50000, 5/1000⟩ : PositionSizer).account_size ≠ 0 ∧
      ∃ r, calculate_position_size ⟨50000, 5/1000⟩ "MNQ" 16515 16527 2 (1/4) = some r ∧
        1 ≤ r.contracts ∧
        r.total_risk_dollars = (r.contracts : ℚ) * r.risk_per_contract ∧
        r.risk_per_contract = |(16515 : ℚ) - 16527| / (1/4) * 2 := by
  refine ⟨by norm_num, by norm_num, by norm_num, by norm_num, ?_⟩
  exact C3_position_sizing ⟨50000, 5/1000⟩ "MNQ" 16515 16527 2 (1/4)
    (by norm_num) (by norm_num) (by norm_num) (by norm_num)

/-- Sanity: at the spec scenario the concrete numbers are the spec's. -/
theorem calculate_position_size_spec_scenario :
    (calculate_position_size ⟨50000, 5/1000⟩ "MNQ" 16515 16527 2 (1/4)).map
        (fun r => (r.contracts, r.risk_per_contract, r.total_risk_dollars)) =
      some (1, 96, 96) := by
  with_unfolding_all decide

/-- **C4** (amended): a zero risk distance is handled numerically in
`_build_signal` (`risk_reward_ratio = 0` when `risk = 0`), but
`calculate_position_size` invoked with `entry = stop` divides by a zero
`risk_per_contract` and raises `ZeroDivisionError` (modelled: `none`)
instead of completing. -/
theorem C4_zero_risk :
    (∀ (cfg : Config) (st : GenState) (sw : Sweep) (cur : Bar)
        (direction : Direction) (min_tick : ℚ),
        (build_signal cfg st sw cur direction min_tick).risk = 0 →
        (build_signal cfg st sw cur direction min_tick).rr = 0) ∧
    (∀ (ps : PositionSizer) (symbol : String) (entry tick_value min_tick : ℚ),
        calculate_position_size ps symbol entry entry tick_value min_tick = none) := by
  constructor
  · intro cfg st sw cur direction min_tick h
    simp only [build_signal] at h ⊢
    rw [h]
    simp
  · intro ps symbol entry tick_value min_tick
    simp [calculate_position_size]

/-- Counterexample to C4 as stated: with `entry = stop = 100` the sizer
does not complete (the source raises `ZeroDivisionError` at
`int(self.max_risk_dollars / risk_per_contract)`), so "`calculate_position_size`
invoked with `entry = stop` also completes without raising" is false. -/
theorem C4_counterexample :
    calculate_position_size ⟨50000, 5/1000⟩ "MNQ" 100 100 2 (1/4) = none := by
  with_unfolding_all decide

/-- Witness for C4 at concrete inputs: `barX` closes exactly on the stop
derived from `swX`, giving `risk = 0` and `risk_reward_ratio = 0`; the
sizer at `entry = stop = 100` returns the raise marker. -/
theorem C4_witness :
    (build_signal cfgNF initGenState swX barX .SHORT (1/4)).risk = 0 ∧
    (build_signal cfgNF initGenState swX barX .SHORT (1/4)).rr = 0 ∧
    calculate_position_size ⟨50000, 5/1000⟩ "ES" 100 100 50 (1/4) = none := by
  have h : (build_signal cfgNF initGenState swX barX .SHORT (1/4)).risk = 0 := by
    with_unfolding_all decide
  exact ⟨h, C4_zero_risk.1 cfgNF initGenState swX barX .SHORT (1/4) h,
    C4_zero_risk.2 ⟨50000, 5/1000⟩ "ES" 100 50 (1/4)⟩

/-- A sweep returned by the buyside branch is tagged buyside/SHORT. -/
lemma buyside_check_shape {buffer : ℕ} {hs : List SwingPoint} {cur : Bar}
    {mt : ℚ} {s : Sweep} (h : buyside_check buffer hs cur mt = some s) :
    s.kind = .buyside_sweep ∧ s.direction = .SHORT := by
  unfold buyside_check at h
  split at h
  · exact absurd h (by simp)
  · split at h
    · cases h
      exact ⟨rfl, rfl⟩
    · exact absurd h (by simp)

/-- A sweep returned by the sellside branch is tagged sellside/LONG. -/
lemma sellside_check_shape {buffer : ℕ} {ls : List SwingPoint} {cur : Bar}
    {mt : ℚ} {s : Sweep} (h : sellside_check buffer ls cur mt = some s) :
    s.kind = .sellside_sweep ∧ s.direction = .LONG := by
  unfold sellside_check at h
  split at h
  · exact absurd h (by simp)
  · split at h
    · cases h
      exact ⟨rfl, rfl⟩
    · exact absurd h (by simp)

/-- **C7**: `detect_sweep` returns at most one sweep per call; whenever
the buyside condition holds against the effective swing lists the
buyside sweep is returned (so it takes precedence when the sellside
condition holds on the same bar); every buyside sweep has direction
SHORT and every sellside sweep direction LONG. -/
theorem C7_sweep_precedence (minSw buffer : ℕ)
    (hs ls : List SwingPoint) (cur : Bar) (prev : List Bar) (mt : ℚ) :
    (∀ s₁ s₂, (detect_sweep minSw buffer hs ls cur prev mt).2 = some s₁ →
      (detect_sweep minSw buffer hs ls cur prev mt).2 = some s₂ → s₁ = s₂) ∧
    (∀ s, buyside_check buffer (detect_sweep minSw buffer hs ls cur prev mt).1.1 cur mt = some s →
      (detect_sweep minSw buffer hs ls cur prev mt).2 = some s) ∧
    (∀ sw, (detect_sweep minSw buffer hs ls cur prev mt).2 = some sw →
      (sw.kind = .buyside_sweep ↔ sw.direction = .SHORT) ∧
      (sw.kind = .sellside_sweep ↔ sw.direction = .LONG)) := by
  refine ⟨?_, ?_, ?_⟩
  · intro s₁ s₂ h₁ h₂
    rw [h₁] at h₂
    exact Option.some.inj h₂
  · intro s h
    show sweep_decision buffer (effective_swings minSw hs ls prev) cur mt = some s
    have h' : buyside_check buffer (effective_swings minSw hs ls prev).1 cur mt = some s := h
    unfold sweep_decision
    rw [h']
    split
    · next hemp =>
      exfalso
      have : (effective_swings minSw hs ls prev).1 = [] :=
        List.isEmpty_iff.mp (Bool.and_elim_left hemp)
      rw [this] at h'
      simp [buyside_check] at h'
    · rfl
  · intro sw h
    have h' : sweep_decision buffer (effective_swings minSw hs ls prev) cur mt = some sw := h
    unfold sweep_decision at h'
    split at h'
    · exact absurd h' (by simp)
    · split at h'
      · next s hb =>
        cases h'
        obtain ⟨h1, h2⟩ := buyside_check_shape hb
        rw [h1, h2]
        exact ⟨by simp, by simp⟩
      · next hb =>
        obtain ⟨h1, h2⟩ := sellside_check_shape h'
        rw [h1, h2]
        exact ⟨by simp, by simp⟩

/-- Witness for C7: on `curX` both the buyside condition (against the 100
swing high) and the sellside condition (against the 90 swing low) hold,
and the buyside SHORT sweep is the one returned. -/
theorem C7_witness :
    (buyside_check 1 (detect_sweep 3 1 hsX lsX curX [] (1/4)).1.1 curX (1/4)).isSome ∧
    (sellside_check 1 (detect_sweep 3 1 hsX lsX curX [] (1/4)).1.2 curX (1/4)).isSome ∧
    ∀ s, buyside_check 1 (detect_sweep 3 1 hsX lsX curX [] (1/4)).1.1 curX (1/4) = some s →
      (detect_sweep 3 1 hsX lsX curX [] (1/4)).2 = some s ∧
      (s.kind = .buyside_sweep ↔ s.direction = .SHORT) := by
  refine ⟨by with_unfolding_all decide, by with_unfolding_all decide, ?_⟩
  intro s hb
  have h2 := (C7_sweep_precedence 3 1 hsX lsX curX [] (1/4)).2.1 s hb
  exact ⟨h2, ((C7_sweep_precedence 3 1 hsX lsX curX [] (1/4)).2.2 s h2).1⟩

/-- **C10** (amended): relative to a fixed ambient filter environment the
pipeline is a pure function of its inputs, and with the edge filters
disabled the result does not depend on the environment at all: two runs
over the same bars, tick size and configuration agree exactly.  (With
filters enabled the built signal's `filter_scores` embed the live VIX
fetched at call time, so two such runs can differ — see the
counterexample.) -/
theorem C10_determinism (cfg : Config) (env₁ env₂ : FilterEnv)
    (st : GenState) (ltf_bars htf_bars : List Bar) (min_tick : ℚ)
    (h : cfg.filters_enabled = false) :
    check_for_signal cfg env₁ st ltf_bars htf_bars min_tick =
    check_for_signal cfg env₂ st ltf_bars htf_bars min_tick := by
  unfold check_for_signal
  cases hrs : runStages cfg st ltf_bars htf_bars min_tick with
  | mk st1 r =>
    cases r with
    | none => rfl
    | some p =>
      cases p with
      | mk sw cur =>
        unfold finishStage
        rw [h]
        rfl

set_option maxRecDepth 10000 in
/-- Counterexample to C10 as stated: on the master scenario with edge
filters enabled, the same fresh pipeline, the same bars and the same
configuration produce different Signals when the ambient VIX fetch
differs (volatility score 1 and VIX 15 versus volatility score 0.5 and
VIX 30 inside `filter_scores`) — the result does not depend only on the
bar inputs and the configuration. -/
theorem C10_counterexample :
    (check_for_signal cfgF envA initGenState ltfM htfM (1/4)).2 ≠
      (check_for_signal cfgF envB initGenState ltfM htfM (1/4)).2 ∧
    ((check_for_signal cfgF envA initGenState ltfM htfM (1/4)).2.map
        (fun s => s.filter_scores.map (fun f => (f.volatility_score, f.vix)))) =
      some (some (1, 15)) ∧
    ((check_for_signal cfgF envB initGenState ltfM htfM (1/4)).2.map
        (fun s => s.filter_scores.map (fun f => (f.volatility_score, f.vix)))) =
      some (some (1/2, 30)) := by
  refine ⟨?_, ?_, ?_⟩ <;> with_unfolding_all decide

set_option maxRecDepth 10000 in
/-- Witness for C10 on the master scenario run in baseline (filters
disabled) mode under two different environments. -/
theorem C10_witness :
    cfgNF.filters_enabled = false ∧
    check_for_signal cfgNF envA initGenState ltfM htfM (1/4) =
      check_for_signal cfgNF envB initGenState ltfM htfM (1/4) :=
  ⟨rfl, C10_determinism cfgNF envA envB initGenState ltfM htfM (1/4) rfl⟩

set_option maxRecDepth 10000 in
/-- Counterexample to C1 as stated: after call 1 records a SHORT sweep
and a SHORT HTF FVG delivery, call 2 replaces the sweep with a LONG one
(`detect_sweep` is re-run every call) while keeping the stale SHORT HTF
entry, and emits a LONG signal whose `confirmations['htf_fvg']` has
direction SHORT. -/
theorem C1_counterexample :
    (c1call2.2.map fun s =>
        (s.direction, s.confirmations.htf_fvg.map fun d => d.direction)) =
      some (Direction.LONG, some Direction.SHORT) := by
  with_unfolding_all decide

set_option maxRecDepth 10000 in
/-- Counterexample to C2 as stated: the sweep stage's recorded
confirmation is re-derived and replaced by a later call of the same
episode (no reset in between — both calls return `None`): the recorded
sweep flips from the SHORT buyside sweep of call 1 to a LONG sellside
sweep in call 2. -/
theorem C2_counterexample :
    c2call1.2 = none ∧ c2call2.2 = none ∧
    (c2call1.1.conf.sweep.map fun s => s.direction) = some Direction.SHORT ∧
    (c2call2.1.conf.sweep.map fun s => s.direction) = some Direction.LONG ∧
    c2call1.1.conf.sweep ≠ c2call2.1.conf.sweep := by
  refine ⟨?_, ?_, ?_, ?_, ?_⟩ <;> with_unfolding_all decide

/-- Per-FVG behaviour of the `check_delivery` loop body: filled FVGs are
untouched, non-filled ones age by exactly one, aging past `max_age`
marks them filled, and a returned delivery's FVG never exceeds
`max_age`. -/
lemma step_fvg_spec (max_age : ℕ) (cur : Bar) (f : FVG) :
    (f.filled = true → step_fvg max_age cur f = (f, none)) ∧
    (f.filled = false →
      (step_fvg max_age cur f).1.age = f.age + 1 ∧
      (max_age < (step_fvg max_age cur f).1.age →
        (step_fvg max_age cur f).1.filled = true)) ∧
    (∀ d, (step_fvg max_age cur f).2 = some d → d.fvg.age ≤ max_age) := by
  refine ⟨?_, ?_, ?_⟩
  · intro hf
    unfold step_fvg
    rw [if_pos hf]
  · intro hf
    unfold step_fvg
    rw [if_neg (by simp [hf])]
    dsimp only
    split
    · exact ⟨rfl, fun _ => rfl⟩
    · next hage =>
      split <;> repeat' split
      all_goals exact ⟨rfl, fun h => absurd h hage⟩
  · intro d hd
    unfold step_fvg at hd
    split at hd
    · simp at hd
    · dsimp only at hd
      split at hd
      · simp at hd
      · next hage =>
        split at hd <;> repeat' split at hd
        all_goals simp at hd
        all_goals (subst hd; simp; omega)

/-- `check_delivery` preserves the length of the active list. -/
lemma check_delivery_length (max_age : ℕ) (cur : Bar) :
    ∀ l : List FVG, (check_delivery max_age cur l).1.length = l.length := by
  intro l
  induction l with
  | nil => rfl
  | cons f rest ih =>
    unfold check_delivery
    split
    · simp
    · simpa using ih

/-- **C5** (amended): on a call of `check_delivery` that returns no
delivery, every FVG not marked filled at the start has its age
incremented by exactly 1, and every such FVG whose incremented age
exceeds `max_age` is marked filled; a returned delivery's FVG never has
age above `max_age` (expired FVGs are never returned).  When a delivery
is returned the scan stops there, so FVGs after the delivering one keep
their ages — the unconditional per-call aging of the original claim fails
(see the counterexample). -/
theorem C5_fvg_aging (max_age : ℕ) (cur : Bar) (fvgs : List FVG) :
    (check_delivery max_age cur fvgs).1.length = fvgs.length ∧
    ((check_delivery max_age cur fvgs).2 = none →
      ∀ i f, fvgs.get? i = some f → f.filled = false →
        ∃ f2, (check_delivery max_age cur fvgs).1.get? i = some f2 ∧
          f2.age = f.age + 1 ∧ (max_age < f2.age → f2.filled = true)) ∧
    (∀ d, (check_delivery max_age cur fvgs).2 = some d →
      d.fvg.age ≤ max_age) := by
  refine ⟨check_delivery_length max_age cur fvgs, ?_, ?_⟩
  · induction fvgs with
    | nil =>
      intro _ i f h
      simp at h
    | cons f rest ih =>
      intro hnone i g hget hgf
      unfold check_delivery at hnone ⊢
      cases hstep : step_fvg max_age cur f with
      | mk f' od =>
        cases od with
        | some d =>
          rw [hstep] at hnone
          simp at hnone
        | none =>
          rw [hstep] at hnone
          dsimp only at hnone ⊢
          cases i with
          | zero =>
            cases hget
            have hs := (step_fvg_spec max_age cur f).2.1 hgf
            rw [hstep] at hs
            exact ⟨f', by simp, hs.1, hs.2⟩
          | succ j =>
            simpa using ih hnone j g (by simpa using hget) hgf
  · induction fvgs with
    | nil =>
      intro d hd
      simp [check_delivery] at hd
    | cons f rest ih =>
      intro d hd
      unfold check_delivery at hd
      cases hstep : step_fvg max_age cur f with
      | mk f' od =>
        cases od with
        | some d0 =>
          rw [hstep] at hd
          dsimp only at hd
          injection hd with h1
          subst h1
          have hs := (step_fvg_spec max_age cur f).2.2 d0
          rw [hstep] at hs
          exact hs rfl
        | none =>
          rw [hstep] at hd
          exact ih d (by simpa using hd)

/-- Counterexample to C5 as stated: `fvgA` delivers on `barD`, the scan
returns at once, and the non-filled `fvgB` behind it keeps age 0 — it is
not incremented during the call. -/
theorem C5_counterexample :
    (check_delivery 20 barD [fvgA, fvgB]).2.isSome ∧
    (check_delivery 20 barD [fvgA, fvgB]).1.get? 1 = some fvgB ∧
    fvgB.filled = false ∧ fvgB.age = 0 := by
  refine ⟨?_, ?_, ?_, ?_⟩ <;> with_unfolding_all decide

/-- Witness for C5 on a no-delivery call: `fvgC` (age 19) ages to 20 and
stays active, `fvgD` (age 20) ages to 21 > 20 and is marked filled
without being returned. -/
theorem C5_witness :
    (check_delivery 20 barE [fvgC, fvgD]).2 = none ∧
    fvgC.filled = false ∧ fvgD.filled = false ∧
    (∃ f2, (check_delivery 20 barE [fvgC, fvgD]).1.get? 0 = some f2 ∧
      f2.age = fvgC.age + 1 ∧ (20 < f2.age → f2.filled = true)) ∧
    (∃ f2, (check_delivery 20 barE [fvgC, fvgD]).1.get? 1 = some f2 ∧
      f2.age = fvgD.age + 1 ∧ (20 < f2.age → f2.filled = true)) := by
  have hnone : (check_delivery 20 barE [fvgC, fvgD]).2 = none := by
    with_unfolding_all decide
  refine ⟨hnone, rfl, rfl, ?_, ?_⟩
  · exact (C5_fvg_aging 20 barE [fvgC, fvgD]).2.1 hnone 0 fvgC rfl rfl
  · exact (C5_fvg_aging 20 barE [fvgC, fvgD]).2.1 hnone 1 fvgD rfl rfl

/-- The backward loop of `detect_cisd` collects exactly a `takeWhile`
over the reversed prefix before the start index, truncated to `fuel`
bars. -/
lemma collectSeries_eq (bars : List Bar) (p : Bar → Bool) :
    ∀ (fuel i : ℕ), fuel ≤ i + 1 → i < bars.length →
      collectSeries bars p i fuel =
        (((bars.take (i + 1)).reverse).take fuel).takeWhile p := by
  intro fuel
  induction fuel with
  | zero =>
    intro i _ _
    simp [collectSeries]
  | succ fuel ih =>
    intro i hfuel hlen
    have hgd : bars.getD i dBar = bars[i] := by
      rw [List.getD_eq_getElem?_getD, List.getElem?_eq_getElem hlen]
      rfl
    have htake : bars.take (i + 1) = bars.take i ++ [bars[i]] := by
      rw [List.take_succ, List.getElem?_eq_getElem hlen]
      rfl
    rw [collectSeries, htake, List.reverse_append]
    simp only [List.reverse_singleton, List.singleton_append,
      List.take_succ_cons, List.takeWhile_cons, hgd]
    by_cases hp : p bars[i] = true
    · rw [if_pos hp, if_pos hp]
      congr 1
      cases i with
      | zero =>
        have hf0 : fuel = 0 := by omega
        subst hf0
        simp [collectSeries]
      | succ j =>
        have h1 : fuel ≤ j + 1 := by omega
        have h2 : j < bars.length := by omega
        simpa using ih j h1 h2
    · rw [if_neg hp, if_neg hp]

/-- The index returned by the sweep-bar scan is in range. -/
lemma find_time_index_lt_length {t : ℕ} :
    ∀ {l : List Bar} {i : ℕ}, find_time_index t l = some i → i < l.length := by
  intro l
  induction l with
  | nil =>
    intro i h
    exact Option.noConfusion h
  | cons b rest ih =>
    intro i h
    unfold find_time_index at h
    split at h
    · cases h
      simp
    · cases hr : find_time_index t rest with
      | none =>
        rw [hr] at h
        simp at h
      | some j =>
        rw [hr] at h
        simp at h
        have := ih hr
        simp only [List.length_cons]
        omega

/-- **C6** (amended): `detect_cisd` behaves exactly as the claim
describes it, except that the backward walk from the bar immediately
preceding the sweep examines at most **9** bars
(`range(sweep_index − 1, max(0, sweep_index − 10), −1)` yields
`min 9 (sweep_index − 1)` indices, so bar 0 is also never reached):
the loop-level translation coincides with the amended spec-level
formulation `cisd_spec` on every input. -/
theorem C6_cisd_characterization (bars : List Bar) (sweep : Sweep)
    (direction : Direction) :
    detect_cisd bars sweep direction = cisd_spec bars sweep direction := by
  by_cases hlen : bars.length < 10
  · simp [detect_cisd, cisd_spec, hlen]
  · cases hidx : find_time_index sweep.time bars with
    | none => simp [detect_cisd, cisd_spec, hlen, hidx]
    | some s =>
      have hslen : s < bars.length := find_time_index_lt_length hidx
      by_cases h5 : s < 5
      · simp [detect_cisd, cisd_spec, hlen, hidx, h5]
      · have hrun : ∀ p : Bar → Bool,
            collectSeries bars p (s - 1) (s - 1 - (s - 10)) =
              cisdRun bars p s := by
          intro p
          unfold cisdRun
          have h1 : s - 1 - (s - 10) ≤ (s - 1) + 1 := by omega
          have h2 : s - 1 < bars.length := by omega
          rw [collectSeries_eq bars p (s - 1 - (s - 10)) (s - 1) h1 h2]
          have h3 : (s - 1) + 1 = s := by omega
          have h4 : s - 1 - (s - 10) = min 9 (s - 1) := by omega
          rw [h3, h4]
        unfold detect_cisd cisd_spec
        rw [if_neg hlen, if_neg hlen, hidx]
        dsimp only
        rw [if_neg h5, if_neg h5]
        cases direction
        · rw [hrun downClose]
        · rw [hrun upClose]

/-- Counterexample to C6 as stated: in `cbars` all ten bars preceding the
sweep bar (indices 1–10) are up-close, so a walk capped at 10 bars would
reach bar 1 and put the CISD level at its open, 40; the code walks only 9
bars and returns level 52 (the open of bar 2). -/
theorem C6_counterexample :
    ((detect_cisd cbars csweep .SHORT).map fun c => c.cisd_level) = some 52 ∧
    ((List.range' 1 10).all fun i => upClose (cbars.getD i dBar)) = true ∧
    (cbars.getD 1 dBar).op = 40 ∧ (52 : ℚ) ≠ 40 := by
  refine ⟨?_, ?_, ?_, ?_⟩ <;> with_unfolding_all decide

/-- If no scanned bar hits the stop or the target, the scan loop finds
nothing. -/
lemma simLoop_none (sig : Signal) (pos : PositionSizeResult)
    (allb : List Bar) :
    ∀ l : List Bar,
      (∀ b ∈ l, stop_hit sig.direction sig.stop_loss b = false ∧
        target_hit sig.direction sig.target b = false) →
      simLoop sig pos allb l = none := by
  intro l
  induction l with
  | nil => intro _; rfl
  | cons b rest ih =>
    intro h
    have hb := h b (List.mem_cons_self b rest)
    unfold simLoop
    rw [hb.1, hb.2]
    simpa using ih fun x hx => h x (List.mem_cons_of_mem b hx)

/-- If the first bar of the scan that hits either level hits the stop,
the loop returns a LOSS at the stop for the full risk. -/
lemma simLoop_stop_first (sig : Signal) (pos : PositionSizeResult)
    (allb : List Bar) :
    ∀ (l : List Bar) (n : ℕ) (b : Bar), l.get? n = some b →
      (∀ m bm, m < n → l.get? m = some bm →
        stop_hit sig.direction sig.stop_loss bm = false ∧
        target_hit sig.direction sig.target bm = false) →
      stop_hit sig.direction sig.stop_loss b = true →
      ∃ r, simLoop sig pos allb l = some r ∧ r.tag = .LOSS ∧
        r.pnl = -pos.total_risk_dollars ∧ r.exit = sig.stop_loss := by
  intro l
  induction l with
  | nil =>
    intro n b hget
    simp at hget
  | cons hd rest ih =>
    intro n b hget hpre hstop
    cases n with
    | zero =>
      cases hget
      exact ⟨⟨sig.time, sig.direction, sig.entry, sig.stop_loss,
          -pos.total_risk_dollars, .LOSS, pos.contracts, allb.indexOf hd + 1⟩,
        by unfold simLoop; rw [hstop]; rfl, rfl, rfl, rfl⟩
    | succ m =>
      have h0 := hpre 0 hd (Nat.succ_pos m) rfl
      unfold simLoop
      rw [h0.1, h0.2]
      simpa using ih m b (by simpa using hget)
        (fun k bk hk hbk => hpre (k + 1) bk (by omega) (by simpa using hbk))
        hstop

/-- **C8**: `simulate_trade` checks the stop before the target within
each bar and scans at most `min(100, len)` future bars: if the first
scanned bar hitting either level hits the stop, the result is a LOSS
with `pnl = −total_risk_dollars` and exit at the stop; if no scanned bar
hits either level — even when a bar beyond the 100-bar window would —
the result is a BREAKEVEN with `pnl = 0` and exit at the entry. -/
theorem C8_simulate_trade (sig : Signal) (pos : PositionSizeResult)
    (future_bars : List Bar) :
    ((∀ b ∈ future_bars.take (min 100 future_bars.length),
        stop_hit sig.direction sig.stop_loss b = false ∧
        target_hit sig.direction sig.target b = false) →
      simulate_trade sig pos future_bars =
        ⟨sig.time, sig.direction, sig.entry, sig.entry, 0, .BREAKEVEN,
          pos.contracts, min 100 future_bars.length⟩) ∧
    (∀ (n : ℕ) (b : Bar),
      (future_bars.take (min 100 future_bars.length)).get? n = some b →
      (∀ m bm, m < n →
        (future_bars.take (min 100 future_bars.length)).get? m = some bm →
        stop_hit sig.direction sig.stop_loss bm = false ∧
        target_hit sig.direction sig.target bm = false) →
      stop_hit sig.direction sig.stop_loss b = true →
      (simulate_trade sig pos future_bars).tag = .LOSS ∧
      (simulate_trade sig pos future_bars).pnl = -pos.total_risk_dollars ∧
      (simulate_trade sig pos future_bars).exit = sig.stop_loss) := by
  constructor
  · intro h
    unfold simulate_trade
    dsimp only
    rw [simLoop_none sig pos future_bars _ h]
  · intro n b hget hpre hstop
    obtain ⟨r, hr, h1, h2, h3⟩ :=
      simLoop_stop_first sig pos future_bars _ n b hget hpre hstop
    unfold simulate_trade
    dsimp only
    rw [hr]
    exact ⟨h1, h2, h3⟩

/-- Witness for C8 at the spec's own scenarios: a SHORT trade (entry 100,
stop 106, target 88) whose second future bar reaches both high 107 and
low 88 exits as a LOSS at the stop for −total_risk_dollars (stop checked
before target); and over `barsBE` — whose only hitting bar is the 105th,
beyond the 100-bar window — the trade exits BREAKEVEN at the entry with
pnl 0. -/
theorem C8_witness :
    ((simulate_trade sigX posX barsHit).tag = .LOSS ∧
      (simulate_trade sigX posX barsHit).pnl = -posX.total_risk_dollars ∧
      (simulate_trade sigX posX barsHit).exit = sigX.stop_loss) ∧
    simulate_trade sigX posX barsBE =
      ⟨sigX.time, sigX.direction, sigX.entry, sigX.entry, 0, .BREAKEVEN,
        posX.contracts, min 100 barsBE.length⟩ := by
  constructor
  · exact (C8_simulate_trade sigX posX barsHit).2 1
      ⟨1, 101, 107, 88, 90, 0⟩ (by with_unfolding_all decide)
      (by
        intro m bm hm hbm
        interval_cases m
        have hb : (barsHit.take (min 100 barsHit.length)).get? 0 =
            some (⟨0, 100, 105, 95, 100, 0⟩ : Bar) := by
          with_unfolding_all decide
        rw [hb] at hbm
        injection hbm with hbm
        subst hbm
        exact ⟨by with_unfolding_all decide, by with_unfolding_all decide⟩)
      (by with_unfolding_all decide)
  · exact (C8_simulate_trade sigX posX barsBE).1 (by with_unfolding_all decide)

/-- `_run_edge_filters` returns `None` exactly when the structure filter
fails, whatever the time/volatility/sweep-quality environment says. -/
lemma run_edge_filters_none_iff (env : FilterEnv) (direction : Direction)
    (entry_price : ℚ) (ltf_bars : List Bar) :
    run_edge_filters env direction entry_price ltf_bars = none ↔
      (is_at_extreme direction entry_price ltf_bars).1 = false := by
  by_cases hse : (is_at_extreme direction entry_price ltf_bars).1 = false <;>
    simp [run_edge_filters, hse]

/-- When the structure filter passes, `_run_edge_filters` returns the
scores: a failed time or volatility check only degrades the recorded
score to 0.5, and the sweep-quality score is recorded as delivered. -/
lemma run_edge_filters_pass (env : FilterEnv) (direction : Direction)
    (entry_price : ℚ) (ltf_bars : List Bar)
    (h : (is_at_extreme direction entry_price ltf_bars).1 = true) :
    run_edge_filters env direction entry_price ltf_bars =
      some (if env.is_good_time then env.time_score_raw else 1/2,
        if env.is_good_vol then env.vol_score_raw else 1/2,
        get_quality_score direction entry_price ltf_bars,
        env.sweep_quality, env.vix) := by
  simp [run_edge_filters, h]

/-- **C9**: with edge filters enabled, only the structure/range-position
filter can veto: `_run_edge_filters` fails exactly when `is_at_extreme`
does, in which case the build step returns `None` and resets the
confirmation state; failing the time, volatility or sweep-quality checks
only degrades the recorded scores; and whether `check_for_signal`
returns a signal is independent of the time/volatility/sweep-quality
environment. -/
theorem C9_structure_veto_only :
    (∀ (env : FilterEnv) (direction : Direction) (entry_price : ℚ)
        (ltf_bars : List Bar),
      run_edge_filters env direction entry_price ltf_bars = none ↔
        (is_at_extreme direction entry_price ltf_bars).1 = false) ∧
    (∀ (env : FilterEnv) (direction : Direction) (entry_price : ℚ)
        (ltf_bars : List Bar),
      (is_at_extreme direction entry_price ltf_bars).1 = true →
      run_edge_filters env direction entry_price ltf_bars =
        some (if env.is_good_time then env.time_score_raw else 1/2,
          if env.is_good_vol then env.vol_score_raw else 1/2,
          get_quality_score direction entry_price ltf_bars,
          env.sweep_quality, env.vix)) ∧
    (∀ (cfg : Config) (env : FilterEnv) (st : GenState) (sw : Sweep)
        (cur : Bar) (ltf_bars : List Bar) (min_tick : ℚ),
      cfg.filters_enabled = true →
      (is_at_extreme sw.direction cur.close ltf_bars).1 = false →
      finishStage cfg env st sw cur ltf_bars min_tick =
        ({ st with conf := emptyConf }, none)) ∧
    (∀ (cfg : Config) (env₁ env₂ : FilterEnv) (st : GenState)
        (ltf_bars htf_bars : List Bar) (min_tick : ℚ),
      ((check_for_signal cfg env₁ st ltf_bars htf_bars min_tick).2 = none ↔
        (check_for_signal cfg env₂ st ltf_bars htf_bars min_tick).2 = none)) := by
  refine ⟨run_edge_filters_none_iff, run_edge_filters_pass, ?_, ?_⟩
  · intro cfg env st sw cur ltf_bars min_tick hf hse
    unfold finishStage
    rw [hf]
    dsimp only
    rw [(run_edge_filters_none_iff env sw.direction cur.close ltf_bars).mpr hse]
    rfl
  · intro cfg env₁ env₂ st ltf_bars htf_bars min_tick
    unfold check_for_signal
    cases hrs : runStages cfg st ltf_bars htf_bars min_tick with
    | mk st1 r =>
      cases r with
      | none => exact Iff.rfl
      | some p =>
        cases p with
        | mk sw cur =>
          unfold finishStage
          dsimp only
          by_cases hf : cfg.filters_enabled = true
          · rw [if_pos hf, if_pos hf]
            by_cases hse : (is_at_extreme sw.direction cur.close ltf_bars).1 = false
            · rw [(run_edge_filters_none_iff env₁ sw.direction cur.close ltf_bars).mpr hse,
                (run_edge_filters_none_iff env₂ sw.direction cur.close ltf_bars).mpr hse]
            · have hb1 := run_edge_filters_pass env₁ sw.direction cur.close ltf_bars
                (by simpa using hse)
              have hb2 := run_edge_filters_pass env₂ sw.direction cur.close ltf_bars
                (by simpa using hse)
              rw [hb1, hb2]
              simp
          · rw [if_neg hf, if_neg hf]

/-- Witness for C9: the iff at a concrete environment and bars; a
concrete veto (too few bars for the structure filter) returning `None`
and resetting the confirmation state; and environment-independence of
signal presence on the call-1 scenario. -/
theorem C9_witness :
    (run_edge_filters envA .SHORT 180 ltfM = none ↔
      (is_at_extreme .SHORT 180 ltfM).1 = false) ∧
    cfgF.filters_enabled = true ∧
    (is_at_extreme swX.direction dBar.close ([] : List Bar)).1 = false ∧
    finishStage cfgF envA initGenState swX dBar [] 1 =
      ({ initGenState with conf := emptyConf }, none) ∧
    ((check_for_signal cfgF envA initGenState ltf1 htf1 (1/4)).2 = none ↔
      (check_for_signal cfgF envB initGenState ltf1 htf1 (1/4)).2 = none) := by
  have h1 : (is_at_extreme swX.direction dBar.close ([] : List Bar)).1 = false := by
    with_unfolding_all decide
  exact ⟨C9_structure_veto_only.1 envA .SHORT 180 ltfM, rfl, h1,
    C9_structure_veto_only.2.2.1 cfgF envA initGenState swX dBar [] 1 rfl h1,
    C9_structure_veto_only.2.2.2 cfgF envA envB initGenState ltf1 htf1 (1/4)⟩

/-- Confirmation #1 updates only the sweep entry: a detected sweep is
recorded (replacing any previous one), otherwise the entry is kept. -/
lemma sweepStage_conf (cfg : Config) (st : GenState) (cur : Bar)
    (prev : List Bar) (mt : ℚ) :
    (sweepStage cfg st cur prev mt).conf.htf_fvg = st.conf.htf_fvg ∧
    (sweepStage cfg st cur prev mt).conf.ifvg = st.conf.ifvg ∧
    (sweepStage cfg st cur prev mt).conf.cisd = st.conf.cisd ∧
    (sweepStage cfg st cur prev mt).conf.sweep =
      match (detect_sweep cfg.min_swing_candles cfg.sweep_buffer_ticks
          st.swingHighs st.swingLows cur prev mt).2 with
      | some sw => some sw
      | none => st.conf.sweep := by
  unfold sweepStage
  cases h : (detect_sweep cfg.min_swing_candles cfg.sweep_buffer_ticks
      st.swingHighs st.swingLows cur prev mt).2 <;>
    simp [h]

/-- Confirmation #2 updates only the HTF entry, and only to a delivery of
the gating direction. -/
lemma htfStage_conf (cfg : Config) (st : GenState) (htf_bars : List Bar)
    (cur : Bar) (mt : ℚ) (direction : Direction) :
    (htfStage cfg st htf_bars cur mt direction).conf.sweep = st.conf.sweep ∧
    (htfStage cfg st htf_bars cur mt direction).conf.ifvg = st.conf.ifvg ∧
    (htfStage cfg st htf_bars cur mt direction).conf.cisd = st.conf.cisd ∧
    ((htfStage cfg st htf_bars cur mt direction).conf.htf_fvg = st.conf.htf_fvg ∨
      ∃ d, (htfStage cfg st htf_bars cur mt direction).conf.htf_fvg = some d ∧
        d.direction = direction) := by
  unfold htfStage
  cases h : (check_delivery cfg.max_htf_fvg_age cur
      (update_fvgs cfg.min_fvg_size_ticks htf_bars mt)).2 with
  | none => simp [h]
  | some d =>
    by_cases hd : d.direction = direction <;> simp [h, hd]

/-- Confirmation #3 updates only the iFVG entry, and only to an inversion
of the gating direction. -/
lemma ifvgStage_conf (st : GenState) (ltf_bars : List Bar) (mt : ℚ)
    (direction : Direction) :
    (ifvgStage st ltf_bars mt direction).conf.sweep = st.conf.sweep ∧
    (ifvgStage st ltf_bars mt direction).conf.htf_fvg = st.conf.htf_fvg ∧
    (ifvgStage st ltf_bars mt direction).conf.cisd = st.conf.cisd ∧
    ((ifvgStage st ltf_bars mt direction).conf.ifvg = st.conf.ifvg ∨
      ∃ x, (ifvgStage st ltf_bars mt direction).conf.ifvg = some x ∧
        x.direction = direction) := by
  unfold ifvgStage
  cases h : detect_ifvg_inversion 1 (takeLastN 10 ltf_bars) direction mt with
  | none => simp [h]
  | some x =>
    by_cases hx : x.direction = direction <;> simp [h, hx]

/-- Confirmation #4 updates only the CISD entry, and only to a
confirmation of the gating direction. -/
lemma cisdStage_conf (st : GenState) (ltf_bars : List Bar) (sw : Sweep)
    (direction : Direction) :
    (cisdStage st ltf_bars sw direction).conf.sweep = st.conf.sweep ∧
    (cisdStage st ltf_bars sw direction).conf.htf_fvg = st.conf.htf_fvg ∧
    (cisdStage st ltf_bars sw direction).conf.ifvg = st.conf.ifvg ∧
    ((cisdStage st ltf_bars sw direction).conf.cisd = st.conf.cisd ∨
      ∃ c, (cisdStage st ltf_bars sw direction).conf.cisd = some c ∧
        c.direction = direction) := by
  unfold cisdStage
  cases h : detect_cisd ltf_bars sw direction with
  | none => simp [h]
  | some c =>
    by_cases hc : c.direction = direction <;> simp [h, hc]

/-- Introduction rule for `ConfInv`. -/
lemma ConfInv_of (st : GenState)
    (h1 : ∀ sw, st.conf.sweep = some sw →
      (∀ d, st.conf.htf_fvg = some d → d.direction = sw.direction) ∧
      (∀ x, st.conf.ifvg = some x → x.direction = sw.direction) ∧
      (∀ c, st.conf.cisd = some c → c.direction = sw.direction))
    (h2 : st.conf.sweep = none →
      st.conf.htf_fvg = none ∧ st.conf.ifvg = none ∧ st.conf.cisd = none) :
    ConfInv st := by
  unfold ConfInv
  cases h : st.conf.sweep with
  | none => exact h2 h
  | some sw => exact h1 sw h

/-- Elimination rule for `ConfInv` with a recorded sweep. -/
lemma ConfInv_some {st : GenState} {sw : Sweep} (hInv : ConfInv st)
    (h : st.conf.sweep = some sw) :
    (∀ d, st.conf.htf_fvg = some d → d.direction = sw.direction) ∧
    (∀ x, st.conf.ifvg = some x → x.direction = sw.direction) ∧
    (∀ c, st.conf.cisd = some c → c.direction = sw.direction) := by
  unfold ConfInv at hInv
  rw [h] at hInv
  exact hInv

/-- Elimination rule for `ConfInv` without a recorded sweep. -/
lemma ConfInv_none {st : GenState} (hInv : ConfInv st)
    (h : st.conf.sweep = none) :
    st.conf.htf_fvg = none ∧ st.conf.ifvg = none ∧ st.conf.cisd = none := by
  unfold ConfInv at hInv
  rw [h] at hInv
  exact hInv

/-- A state with a reset confirmation map satisfies the invariant. -/
lemma ConfInv_reset (st : GenState) : ConfInv { st with conf := emptyConf } :=
  ⟨rfl, rfl, rfl⟩

/-- `EntriesOk` implies the invariant. -/
lemma ConfInv_of_entriesOk {st : GenState} {sw : Sweep}
    (h : EntriesOk st sw) : ConfInv st := by
  unfold ConfInv
  rw [h.1]
  exact h.2

/-- `EntriesOk` is closed under the stage-skipping conditional. -/
lemma entriesOk_ite {c : Prop} [Decidable c] {st st' : GenState} {sw : Sweep}
    (h1 : EntriesOk st sw) (h2 : EntriesOk st' sw) :
    EntriesOk (if c then st else st') sw := by
  split <;> assumption

/-- The HTF stage preserves `EntriesOk` for the gating direction. -/
lemma entriesOk_htfStage {cfg : Config} {st : GenState}
    {htf_bars : List Bar} {cur : Bar} {mt : ℚ} {sw : Sweep}
    (h : EntriesOk st sw) :
    EntriesOk (htfStage cfg st htf_bars cur mt sw.direction) sw := by
  obtain ⟨hs, hi, hc, hd⟩ := htfStage_conf cfg st htf_bars cur mt sw.direction
  refine ⟨hs.trans h.1, ?_, fun x hx => h.2.2.1 x (hi ▸ hx),
    fun c hcc => h.2.2.2 c (hc ▸ hcc)⟩
  intro d hdd
  rcases hd with hold | ⟨d', hd', hdir⟩
  · exact h.2.1 d (hold ▸ hdd)
  · rw [hd'] at hdd
    cases hdd
    exact hdir

/-- The iFVG stage preserves `EntriesOk` for the gating direction. -/
lemma entriesOk_ifvgStage {st : GenState} {ltf_bars : List Bar} {mt : ℚ}
    {sw : Sweep} (h : EntriesOk st sw) :
    EntriesOk (ifvgStage st ltf_bars mt sw.direction) sw := by
  obtain ⟨hs, hh, hc, hx⟩ := ifvgStage_conf st ltf_bars mt sw.direction
  refine ⟨hs.trans h.1, fun d hd => h.2.1 d (hh ▸ hd), ?_,
    fun c hcc => h.2.2.2 c (hc ▸ hcc)⟩
  intro x hxx
  rcases hx with hold | ⟨x', hx', hdir⟩
  · exact h.2.2.1 x (hold ▸ hxx)
  · rw [hx'] at hxx
    cases hxx
    exact hdir

/-- The CISD stage preserves `EntriesOk` for the gating direction. -/
lemma entriesOk_cisdStage {st : GenState} {ltf_bars : List Bar} {sw₀ sw : Sweep}
    (h : EntriesOk st sw) :
    EntriesOk (cisdStage st ltf_bars sw₀ sw.direction) sw := by
  obtain ⟨hs, hh, hx, hc⟩ := cisdStage_conf st ltf_bars sw₀ sw.direction
  refine ⟨hs.trans h.1, fun d hd => h.2.1 d (hh ▸ hd),
    fun x hxx => h.2.2.1 x (hx ▸ hxx), ?_⟩
  intro c hcc
  rcases hc with hold | ⟨c', hc', hdir⟩
  · exact h.2.2.2 c (hold ▸ hcc)
  · rw [hc'] at hcc
    cases hcc
    exact hdir

/-- Confirmation #1 preserves the invariant on calls that do not flip the
direction of the recorded sweep. -/
lemma sweepStage_inv (cfg : Config) (st : GenState) (ltf_bars : List Bar)
    (mt : ℚ) (hInv : ConfInv st) (hNF : NoFlip cfg st ltf_bars mt) :
    ConfInv (sweepStage cfg st (ltf_bars.getLast?.getD dBar)
      ltf_bars.dropLast mt) := by
  obtain ⟨e1h, e1i, e1c, e1s⟩ :=
    sweepStage_conf cfg st (ltf_bars.getLast?.getD dBar) ltf_bars.dropLast mt
  apply ConfInv_of
  · intro sw hsw1
    cases hdet : (detect_sweep cfg.min_swing_candles cfg.sweep_buffer_ticks
        st.swingHighs st.swingLows (ltf_bars.getLast?.getD dBar)
        ltf_bars.dropLast mt).2 with
    | some sw₁ =>
      rw [hdet] at e1s
      rw [e1s] at hsw1
      cases hsw1
      cases hsw0 : st.conf.sweep with
      | none =>
        obtain ⟨hh, hi, hc⟩ := ConfInv_none hInv hsw0
        exact ⟨fun d hd => absurd (e1h ▸ hd : st.conf.htf_fvg = some d)
            (by rw [hh]; simp),
          fun x hx => absurd (e1i ▸ hx : st.conf.ifvg = some x)
            (by rw [hi]; simp),
          fun c hc2 => absurd (e1c ▸ hc2 : st.conf.cisd = some c)
            (by rw [hc]; simp)⟩
      | some sw₀ =>
        have hdir : sw.direction = sw₀.direction := hNF sw₀ sw hsw0 hdet
        obtain ⟨hh, hi, hc⟩ := ConfInv_some hInv hsw0
        rw [hdir]
        exact ⟨fun d hd => hh d (e1h ▸ hd), fun x hx => hi x (e1i ▸ hx),
          fun c hc2 => hc c (e1c ▸ hc2)⟩
    | none =>
      rw [hdet] at e1s
      rw [e1s] at hsw1
      obtain ⟨hh, hi, hc⟩ := ConfInv_some hInv hsw1
      exact ⟨fun d hd => hh d (e1h ▸ hd), fun x hx => hi x (e1i ▸ hx),
        fun c hc2 => hc c (e1c ▸ hc2)⟩
  · intro hsw1
    cases hdet : (detect_sweep cfg.min_swing_candles cfg.sweep_buffer_ticks
        st.swingHighs st.swingLows (ltf_bars.getLast?.getD dBar)
        ltf_bars.dropLast mt).2 with
    | some sw₁ =>
      rw [hdet] at e1s
      rw [e1s] at hsw1
      exact Option.noConfusion hsw1
    | none =>
      rw [hdet] at e1s
      rw [e1s] at hsw1
      obtain ⟨hh, hi, hc⟩ := ConfInv_none hInv hsw1
      exact ⟨e1h.trans hh, e1i.trans hi, e1c.trans hc⟩

/-- The staged confirmation scan preserves the invariant, and when it
hands a sweep to the build step that sweep is the recorded one. -/
lemma runStages_inv (cfg : Config) (st : GenState)
    (ltf_bars htf_bars : List Bar) (mt : ℚ)
    (hInv : ConfInv st) (hNF : NoFlip cfg st ltf_bars mt) :
    ConfInv (runStages cfg st ltf_bars htf_bars mt).1 ∧
    ∀ sw cur, (runStages cfg st ltf_bars htf_bars mt).2 = some (sw, cur) →
      EntriesOk (runStages cfg st ltf_bars htf_bars mt).1 sw := by
  unfold runStages
  split
  · exact ⟨hInv, fun sw cur h => Option.noConfusion h⟩
  · next hguard =>
    dsimp only
    have hInv1 := sweepStage_inv cfg st ltf_bars mt hInv hNF
    set st1 := sweepStage cfg st (ltf_bars.getLast?.getD dBar)
      ltf_bars.dropLast mt with hst1
    cases hsw1 : st1.conf.sweep with
    | none => exact ⟨hInv1, fun sw cur h => Option.noConfusion h⟩
    | some sw =>
      dsimp only
      have ok1 : EntriesOk st1 sw := ⟨hsw1, ConfInv_some hInv1 hsw1⟩
      have ok2 : EntriesOk (if st1.conf.htf_fvg.isSome = true then st1
          else htfStage cfg st1 htf_bars (ltf_bars.getLast?.getD dBar) mt
            sw.direction) sw :=
        entriesOk_ite ok1 (entriesOk_htfStage ok1)
      set st2 := if st1.conf.htf_fvg.isSome = true then st1
        else htfStage cfg st1 htf_bars (ltf_bars.getLast?.getD dBar) mt
          sw.direction with hst2
      cases hh2 : st2.conf.htf_fvg with
      | none => exact ⟨ConfInv_of_entriesOk ok2, fun sw' cur h => Option.noConfusion h⟩
      | some d2 =>
        dsimp only
        have ok3 : EntriesOk (if st2.conf.ifvg.isSome = true then st2
            else ifvgStage st2 ltf_bars mt sw.direction) sw :=
          entriesOk_ite ok2 (entriesOk_ifvgStage ok2)
        set st3 := if st2.conf.ifvg.isSome = true then st2
          else ifvgStage st2 ltf_bars mt sw.direction with hst3
        cases hh3 : st3.conf.ifvg with
        | none => exact ⟨ConfInv_of_entriesOk ok3, fun sw' cur h => Option.noConfusion h⟩
        | some x3 =>
          dsimp only
          have ok4 : EntriesOk (if st3.conf.cisd.isSome = true then st3
              else cisdStage st3 ltf_bars sw sw.direction) sw :=
            entriesOk_ite ok3 (entriesOk_cisdStage ok3)
          set st4 := if st3.conf.cisd.isSome = true then st3
            else cisdStage st3 ltf_bars sw sw.direction with hst4
          cases hh4 : st4.conf.cisd with
          | none => exact ⟨ConfInv_of_entriesOk ok4, fun sw' cur h => Option.noConfusion h⟩
          | some c4 =>
            dsimp only
            refine ⟨ConfInv_of_entriesOk ok4, ?_⟩
            intro sw' cur h
            injection h with h
            injection h with h1 h2
            subst h1
            exact ok4

/-- The build step resets the confirmation state and, when it emits a
signal, snapshots direction-consistent confirmations into it. -/
lemma finishStage_consistent (cfg : Config) (env : FilterEnv)
    (st : GenState) (sw : Sweep) (cur : Bar) (ltf_bars : List Bar)
    (mt : ℚ) (hok : EntriesOk st sw) :
    ConfInv (finishStage cfg env st sw cur ltf_bars mt).1 ∧
    ∀ sig, (finishStage cfg env st sw cur ltf_bars mt).2 = some sig →
      SigConsistent sig := by
  unfold finishStage
  dsimp only
  cases hsc : (if cfg.filters_enabled = true then
      run_edge_filters env sw.direction cur.close ltf_bars
    else some (1, 1, 1, 10, 15)) with
  | none => exact ⟨ConfInv_reset st, fun sig h => Option.noConfusion h⟩
  | some q =>
    obtain ⟨ts, vs, ss, sq, vix⟩ := q
    dsimp only
    refine ⟨ConfInv_reset st, ?_⟩
    intro sig h
    injection h with h
    subst h
    simp only [SigConsistent, build_signal]
    exact ⟨fun sw' hsw' => by rw [hok.1] at hsw'; cases hsw'; rfl,
      fun d hd => hok.2.1 d hd, fun x hx => hok.2.2.1 x hx,
      fun c hc => hok.2.2.2 c hc⟩

/-- **C1** (amended): the freshly constructed pipeline satisfies the
direction-consistency invariant, and on every call that does not replace
the recorded sweep with a sweep of a different direction the invariant
is preserved and any emitted Signal has every non-absent
`confirmations` entry's direction equal to the signal's own direction.
(Unconditionally the claim fails — `detect_sweep` runs on every call and
an opposite-direction replacement leaves stale entries behind; see the
counterexample.) -/
theorem C1_direction_consistency :
    ConfInv initGenState ∧
    ∀ (cfg : Config) (env : FilterEnv) (st : GenState)
      (ltf_bars htf_bars : List Bar) (min_tick : ℚ),
      ConfInv st → NoFlip cfg st ltf_bars min_tick →
      ConfInv (check_for_signal cfg env st ltf_bars htf_bars min_tick).1 ∧
      ∀ sig, (check_for_signal cfg env st ltf_bars htf_bars min_tick).2 =
          some sig → SigConsistent sig := by
  refine ⟨⟨rfl, rfl, rfl⟩, ?_⟩
  intro cfg env st ltf_bars htf_bars min_tick hInv hNF
  have hrs := runStages_inv cfg st ltf_bars htf_bars min_tick hInv hNF
  unfold check_for_signal
  cases hr : runStages cfg st ltf_bars htf_bars min_tick with
  | mk st1 r =>
    rw [hr] at hrs
    cases r with
    | none => exact ⟨hrs.1, fun sig h => Option.noConfusion h⟩
    | some p =>
      obtain ⟨sw, cur⟩ := p
      exact finishStage_consistent cfg env st1 sw cur ltf_bars min_tick
        (hrs.2 sw cur rfl)

/-- Witness for C1: the single-call master scenario from the fresh state
(the no-flip hypothesis holds vacuously) emits a signal, and the theorem
yields its direction-consistency. -/
theorem C1_witness :
    ConfInv initGenState ∧ NoFlip cfgF initGenState ltfM (1/4) ∧
    (ConfInv (check_for_signal cfgF envA initGenState ltfM htfM (1/4)).1 ∧
      ∀ sig, (check_for_signal cfgF envA initGenState ltfM htfM (1/4)).2 =
        some sig → SigConsistent sig) := by
  have h1 : ConfInv initGenState := C1_direction_consistency.1
  have h2 : NoFlip cfgF initGenState ltfM (1/4) :=
    fun sw₀ sw₁ h _ => Option.noConfusion h
  exact ⟨h1, h2, C1_direction_consistency.2 cfgF envA initGenState ltfM htfM
    (1/4) h1 h2⟩

/-- Once recorded, the HTF/iFVG/CISD confirmations survive the staged
scan unchanged. -/
lemma runStages_preserve (cfg : Config) (st : GenState)
    (ltf_bars htf_bars : List Bar) (mt : ℚ) :
    (∀ d, st.conf.htf_fvg = some d →
      (runStages cfg st ltf_bars htf_bars mt).1.conf.htf_fvg = some d) ∧
    (∀ x, st.conf.ifvg = some x →
      (runStages cfg st ltf_bars htf_bars mt).1.conf.ifvg = some x) ∧
    (∀ c, st.conf.cisd = some c →
      (runStages cfg st ltf_bars htf_bars mt).1.conf.cisd = some c) := by
  unfold runStages
  split
  · exact ⟨fun d hd => hd, fun x hx => hx, fun c hc => hc⟩
  · next hguard =>
    dsimp only
    obtain ⟨e1h, e1i, e1c, _⟩ := sweepStage_conf cfg st
      (ltf_bars.getLast?.getD dBar) ltf_bars.dropLast mt
    set st1 := sweepStage cfg st (ltf_bars.getLast?.getD dBar)
      ltf_bars.dropLast mt with hst1
    have p1 : (∀ d, st.conf.htf_fvg = some d → st1.conf.htf_fvg = some d) ∧
        (∀ x, st.conf.ifvg = some x → st1.conf.ifvg = some x) ∧
        (∀ c, st.conf.cisd = some c → st1.conf.cisd = some c) :=
      ⟨fun d hd => e1h.trans hd, fun x hx => e1i.trans hx,
        fun c hc => e1c.trans hc⟩
    cases hsw1 : st1.conf.sweep with
    | none => exact p1
    | some sw =>
      dsimp only
      have p2 : (∀ d, st.conf.htf_fvg = some d →
          (if st1.conf.htf_fvg.isSome = true then st1
            else htfStage cfg st1 htf_bars (ltf_bars.getLast?.getD dBar) mt
              sw.direction).conf.htf_fvg = some d) ∧
          (∀ x, st.conf.ifvg = some x →
          (if st1.conf.htf_fvg.isSome = true then st1
            else htfStage cfg st1 htf_bars (ltf_bars.getLast?.getD dBar) mt
              sw.direction).conf.ifvg = some x) ∧
          (∀ c, st.conf.cisd = some c →
          (if st1.conf.htf_fvg.isSome = true then st1
            else htfStage cfg st1 htf_bars (ltf_bars.getLast?.getD dBar) mt
              sw.direction).conf.cisd = some c) := by
        split
        · exact p1
        · next hcond =>
          have hn : st1.conf.htf_fvg = none :=
            Option.not_isSome_iff_eq_none.mp (by simpa using hcond)
          obtain ⟨_, e2i, e2c, _⟩ := htfStage_conf cfg st1 htf_bars
            (ltf_bars.getLast?.getD dBar) mt sw.direction
          exact ⟨fun d hd => absurd (p1.1 d hd) (by rw [hn]; simp),
            fun x hx => e2i.trans (p1.2.1 x hx),
            fun c hc => e2c.trans (p1.2.2 c hc)⟩
      set st2 := if st1.conf.htf_fvg.isSome = true then st1
        else htfStage cfg st1 htf_bars (ltf_bars.getLast?.getD dBar) mt
          sw.direction with hst2
      cases hh2 : st2.conf.htf_fvg with
      | none => exact p2
      | some d2 =>
        dsimp only
        have p3 : (∀ d, st.conf.htf_fvg = some d →
            (if st2.conf.ifvg.isSome = true then st2
              else ifvgStage st2 ltf_bars mt sw.direction).conf.htf_fvg = some d) ∧
            (∀ x, st.conf.ifvg = some x →
            (if st2.conf.ifvg.isSome = true then st2
              else ifvgStage st2 ltf_bars mt sw.direction).conf.ifvg = some x) ∧
            (∀ c, st.conf.cisd = some c →
            (if st2.conf.ifvg.isSome = true then st2
              else ifvgStage st2 ltf_bars mt sw.direction).conf.cisd = some c) := by
          split
          · exact p2
          · next hcond =>
            have hn : st2.conf.ifvg = none :=
              Option.not_isSome_iff_eq_none.mp (by simpa using hcond)
            obtain ⟨_, e3h, e3c, _⟩ := ifvgStage_conf st2 ltf_bars mt sw.direction
            exact ⟨fun d hd => e3h.trans (p2.1 d hd),
              fun x hx => absurd (p2.2.1 x hx) (by rw [hn]; simp),
              fun c hc => e3c.trans (p2.2.2 c hc)⟩
        set st3 := if st2.conf.ifvg.isSome = true then st2
          else ifvgStage st2 ltf_bars mt sw.direction with hst3
        cases hh3 : st3.conf.ifvg with
        | none => exact p3
        | some x3 =>
          dsimp only
          have p4 : (∀ d, st.conf.htf_fvg = some d →
              (if st3.conf.cisd.isSome = true then st3
                else cisdStage st3 ltf_bars sw sw.direction).conf.htf_fvg = some d) ∧
              (∀ x, st.conf.ifvg = some x →
              (if st3.conf.cisd.isSome = true then st3
                else cisdStage st3 ltf_bars sw sw.direction).conf.ifvg = some x) ∧
              (∀ c, st.conf.cisd = some c →
              (if st3.conf.cisd.isSome = true then st3
                else cisdStage st3 ltf_bars sw sw.direction).conf.cisd = some c) := by
            split
            · exact p3
            · next hcond =>
              have hn : st3.conf.cisd = none :=
                Option.not_isSome_iff_eq_none.mp (by simpa using hcond)
              obtain ⟨_, e4h, e4i, _⟩ := cisdStage_conf st3 ltf_bars sw sw.direction
              exact ⟨fun d hd => e4h.trans (p3.1 d hd),
                fun x hx => e4i.trans (p3.2.1 x hx),
                fun c hc => absurd (p3.2.2 c hc) (by rw [hn]; simp)⟩
          set st4 := if st3.conf.cisd.isSome = true then st3
            else cisdStage st3 ltf_bars sw sw.direction with hst4
          cases hh4 : st4.conf.cisd with
          | none => exact p4
          | some c4 => exact p4

/-- The build step always leaves the confirmation state reset. -/
lemma finishStage_reset (cfg : Config) (env : FilterEnv) (st : GenState)
    (sw : Sweep) (cur : Bar) (ltf_bars : List Bar) (mt : ℚ) :
    (finishStage cfg env st sw cur ltf_bars mt).1.conf = emptyConf := by
  unfold finishStage
  dsimp only
  cases hsc : (if cfg.filters_enabled = true then
      run_edge_filters env sw.direction cur.close ltf_bars
    else some (1, 1, 1, 10, 15)) with
  | none => rfl
  | some q =>
    obtain ⟨ts, vs, ss, sq, vix⟩ := q
    rfl

/-- **C2** (amended): once one of the HTF-FVG, iFVG or CISD
confirmations is recorded, no later call re-derives or replaces it — it
either survives the call unchanged or disappears only through the
episode-ending reset of the whole confirmation state.  The sweep stage
is the exception: `detect_sweep` is re-evaluated on every call and a
newly detected sweep replaces the recorded one (see the
counterexample). -/
theorem C2_first_found_wins (cfg : Config) (env : FilterEnv)
    (st : GenState) (ltf_bars htf_bars : List Bar) (min_tick : ℚ) :
    (∀ d, st.conf.htf_fvg = some d →
      (check_for_signal cfg env st ltf_bars htf_bars min_tick).1.conf.htf_fvg = some d ∨
      (check_for_signal cfg env st ltf_bars htf_bars min_tick).1.conf = emptyConf) ∧
    (∀ x, st.conf.ifvg = some x →
      (check_for_signal cfg env st ltf_bars htf_bars min_tick).1.conf.ifvg = some x ∨
      (check_for_signal cfg env st ltf_bars htf_bars min_tick).1.conf = emptyConf) ∧
    (∀ c, st.conf.cisd = some c →
      (check_for_signal cfg env st ltf_bars htf_bars min_tick).1.conf.cisd = some c ∨
      (check_for_signal cfg env st ltf_bars htf_bars min_tick).1.conf = emptyConf) := by
  have hp := runStages_preserve cfg st ltf_bars htf_bars min_tick
  unfold check_for_signal
  cases hr : runStages cfg st ltf_bars htf_bars min_tick with
  | mk st1 r =>
    rw [hr] at hp
    cases r with
    | none =>
      exact ⟨fun d hd => Or.inl (hp.1 d hd), fun x hx => Or.inl (hp.2.1 x hx),
        fun c hc => Or.inl (hp.2.2 c hc)⟩
    | some p =>
      obtain ⟨sw, cur⟩ := p
      exact ⟨fun d _ => Or.inr (finishStage_reset cfg env st1 sw cur ltf_bars min_tick),
        fun x _ => Or.inr (finishStage_reset cfg env st1 sw cur ltf_bars min_tick),
        fun c _ => Or.inr (finishStage_reset cfg env st1 sw cur ltf_bars min_tick)⟩

/-- Witness for C2: a state carrying a recorded HTF delivery `dX` keeps
it across a call (here one that stalls for lack of bars). -/
theorem C2_witness :
    stX.conf.htf_fvg = some dX ∧
    ((check_for_signal cfgNF envA stX [] [] 1).1.conf.htf_fvg = some dX ∨
      (check_for_signal cfgNF envA stX [] [] 1).1.conf = emptyConf) :=
  ⟨rfl, (C2_first_found_wins cfgNF envA stX [] [] 1).1 dX rfl⟩
